import Mathlib

/-!
Verification development for the mini_generals simulation engine
(src/game/engine.ts, src/game/types.ts).

Modelling conventions:
* JavaScript numbers are modelled as exact rationals.
* The JS object maps (string uuid keys, insertion ordered) are modelled as
  lists of records carrying a numeric id field; uuidv4 is modelled by a
  fresh-id counter nextId.  Object.values iteration is list order,
  map lookup is find? by id, in-place mutation of the record with a given
  id is a map over the list.
* Math.random values consumed by the engine (resource spots, base
  positions) are passed in as explicit parameters.
* Math.sqrt has no exact rational counterpart, so every operation that
  computes a euclidean distance takes the square-root function as an
  explicit parameter sqrt.  Concrete theorems only constrain it at
  perfect-square inputs (such as sqrt 0 = 0), where the behaviour of
  Math.sqrt is exact.
* The roster player.units holds references into the global unit map; it
  is modelled as the list of unit ids, resolved through the global map.
-/

namespace MiniGenerals

/-- UnitType from types.ts. -/
inductive UnitType where
  | SOLDIER
  | TANK
  | HELICOPTER
deriving DecidableEq, Repr

/-- FactionType from types.ts. -/
inductive FactionType where
  | USA
  | CHINA
  | GLA
deriving DecidableEq, Repr

/-- ResourceType from types.ts (money is the only resource). -/
inductive ResourceType where
  | MONEY
deriving DecidableEq, Repr

/-- Position from types.ts. -/
structure Position where
  x : ℚ
  y : ℚ
deriving DecidableEq, Repr

/-- Unit from types.ts (named GUnit because Unit is taken by the core
library).  path models the optional waypoint array, with the absent array
identified with the empty one; unitIds of the owning player hold the
back-references. -/
structure GUnit where
  id : ℕ
  type : UnitType
  position : Position
  health : ℚ
  maxHealth : ℚ
  attack : ℚ
  defense : ℚ
  range : ℚ
  speed : ℚ
  playerId : ℕ
  targetId : Option ℕ
  path : List Position
  isDead : Bool
  isMoving : Bool
  isAttacking : Bool
  canAttackAir : Bool
  canAttackGround : Bool
deriving DecidableEq, Repr

/-- Player from types.ts.  resources[MONEY] is the field money; units is
the list of ids of owned units (back-references into the world map). -/
structure Player where
  id : ℕ
  name : String
  faction : FactionType
  money : ℚ
  unitIds : List ℕ
  basePosition : Position
  color : String
deriving DecidableEq, Repr

/-- Resource from types.ts. -/
structure Resource where
  id : ℕ
  type : ResourceType
  position : Position
  amount : ℚ
  respawnTime : ℚ
  isCollected : Bool
deriving DecidableEq, Repr

/-- GameState plus the id counter of the GameEngine class (the uuid
source), from engine.ts. -/
structure Engine where
  players : List Player
  units : List GUnit
  resources : List Resource
  gameTime : ℚ
  mapWidth : ℚ
  mapHeight : ℚ
  nextId : ℕ
deriving DecidableEq, Repr

/-- Lookup of state.units[id]. -/
def lookupUnit (us : List GUnit) (uid : ℕ) : Option GUnit :=
  us.find? (fun u => u.id == uid)

/-- In-place mutation of the unit record with a given id. -/
def setUnit (us : List GUnit) (uid : ℕ) (f : GUnit → GUnit) : List GUnit :=
  us.map (fun u => if u.id = uid then f u else u)

/-- Lookup of state.players[id]. -/
def lookupPlayer (ps : List Player) (pid : ℕ) : Option Player :=
  ps.find? (fun p => p.id == pid)

/-- In-place mutation of the player record with a given id. -/
def setPlayer (ps : List Player) (pid : ℕ) (f : Player → Player) : List Player :=
  ps.map (fun p => if p.id = pid then f p else p)

/-- Lookup of state.resources[id]. -/
def lookupResource (rs : List Resource) (rid : ℕ) : Option Resource :=
  rs.find? (fun r => r.id == rid)

/-- In-place mutation of the resource record with a given id. -/
def setResource (rs : List Resource) (rid : ℕ) (f : Resource → Resource) : List Resource :=
  rs.map (fun r => if r.id = rid then f r else r)

/-- BASE_UNIT_COSTS from engine.ts. -/
def baseUnitCost : UnitType → ℚ
  | .SOLDIER => 150
  | .TANK => 450
  | .HELICOPTER => 700

/-- The per-type block of UNIT_STATS from engine.ts. -/
structure UnitStats where
  health : ℚ
  maxHealth : ℚ
  attack : ℚ
  defense : ℚ
  range : ℚ
  speed : ℚ
  canAttackAir : Bool
  canAttackGround : Bool
deriving DecidableEq, Repr

/-- UNIT_STATS from engine.ts. -/
def unitStatsOf : UnitType → UnitStats
  | .SOLDIER => ⟨100, 100, 10, 5, 3, 2, true, true⟩
  | .TANK => ⟨300, 300, 30, 20, 5, 3/2, false, true⟩
  | .HELICOPTER => ⟨200, 200, 25, 10, 7, 3, true, true⟩

/-- RESOURCE_CONFIG.respawnTime. -/
def resourceRespawnTime : ℚ := 30

/-- RESOURCE_CONFIG.resourceAmount[MONEY]. -/
def resourceAmount : ℚ := 150

/-- RESOURCE_CONFIG.mapResourceCount[MONEY]. -/
def mapResourceCount : ℕ := 15

/-- The player color palette of addPlayer. -/
def playerColors : List String :=
  ["#FF5733", "#33FF57", "#3357FF", "#F3FF33", "#FF33F3"]

/-- The fixed starting balance granted by addPlayer. -/
def startingMoney : ℚ := 800

/-- The constructor plus generateResourceSpots plus spawnResources: one
money resource per pre-generated spot coordinate (the Math.random spot
coordinates are the parameter spots), full amount, not collected; ids are
modelled as 0,1,... with the counter left past them. -/
def initEngine (w h : ℚ) (spots : List Position) : Engine :=
  { players := []
    units := []
    resources := (List.range mapResourceCount).map (fun i =>
      { id := i
        type := ResourceType.MONEY
        position := spots.getD i ⟨0, 0⟩
        amount := resourceAmount
        respawnTime := resourceRespawnTime
        isCollected := false })
    gameTime := 0
    mapWidth := w
    mapHeight := h
    nextId := mapResourceCount }

/-- The scaled price computed by createUnit:
floor(base cost of the type times (1 + unit count times 0.1)). -/
def scaledUnitCost (t : UnitType) (n : ℕ) : ℚ :=
  (⌊baseUnitCost t * (1 + (n : ℚ) * (1 / 10))⌋ : ℤ)

/-- The unit record built by createUnit from UNIT_STATS. -/
def mkUnit (uid : ℕ) (t : UnitType) (pos : Position) (pid : ℕ) : GUnit :=
  let s := unitStatsOf t
  { id := uid
    type := t
    position := pos
    health := s.health
    maxHealth := s.maxHealth
    attack := s.attack
    defense := s.defense
    range := s.range
    speed := s.speed
    playerId := pid
    targetId := none
    path := []
    isDead := false
    isMoving := false
    isAttacking := false
    canAttackAir := s.canAttackAir
    canAttackGround := s.canAttackGround }

/-- createUnit from engine.ts.  Returns the created id (none on failure)
and the new state. -/
def createUnit (e : Engine) (playerId : ℕ) (t : UnitType) (pos : Position) :
    Option ℕ × Engine :=
  match lookupPlayer e.players playerId with
  | none => (none, e)
  | some p =>
    let cost := scaledUnitCost t p.unitIds.length
    if p.money < cost then (none, e)
    else
      let uid := e.nextId
      (some uid,
        { e with
          nextId := uid + 1
          units := e.units ++ [mkUnit uid t pos playerId]
          players := setPlayer e.players playerId (fun q =>
            { q with money := q.money - cost, unitIds := q.unitIds ++ [uid] }) })

/-- addPlayer from engine.ts.  The Math.random base position is the
parameter basePos.  Grants the starting balance, then issues the three
starter createUnit commands (two soldiers flanking the base, one tank
behind it).  Returns the new player id and the new state. -/
def addPlayer (e : Engine) (nm : String) (fac : FactionType) (basePos : Position) :
    ℕ × Engine :=
  let pid := e.nextId
  let color := playerColors.getD (e.players.length % playerColors.length) ""
  let p : Player :=
    { id := pid
      name := nm
      faction := fac
      money := startingMoney
      unitIds := []
      basePosition := basePos
      color := color }
  let e1 := { e with players := e.players ++ [p], nextId := pid + 1 }
  let e2 := (createUnit e1 pid .SOLDIER ⟨basePos.x - 20, basePos.y - 20⟩).2
  let e3 := (createUnit e2 pid .SOLDIER ⟨basePos.x + 20, basePos.y - 20⟩).2
  let e4 := (createUnit e3 pid .TANK ⟨basePos.x, basePos.y + 20⟩).2
  (pid, e4)

/-- moveUnit from engine.ts. -/
def moveUnit (e : Engine) (unitId : ℕ) (target : Position) : Bool × Engine :=
  match lookupUnit e.units unitId with
  | none => (false, e)
  | some u =>
    if u.isDead then (false, e)
    else
      (true,
        { e with
          units := setUnit e.units unitId (fun v =>
            { v with
              path := [target]
              isMoving := true
              isAttacking := false
              targetId := none }) })

/-- canUnitAttackTarget from engine.ts: helicopters are the sole air
category. -/
def canUnitAttackTarget (attacker target : GUnit) : Bool :=
  if target.type = UnitType.HELICOPTER then attacker.canAttackAir
  else attacker.canAttackGround

/-- attackUnit from engine.ts. -/
def attackUnit (e : Engine) (attackerId targetId : ℕ) : Bool × Engine :=
  match lookupUnit e.units attackerId, lookupUnit e.units targetId with
  | some attacker, some target =>
    if attacker.isDead = true ∨ target.isDead = true ∨
        attacker.playerId = target.playerId then (false, e)
    else if canUnitAttackTarget attacker target = false then (false, e)
    else
      (true,
        { e with
          units := setUnit e.units attackerId (fun v =>
            { v with targetId := some targetId, isAttacking := true }) })
  | _, _ => (false, e)

/-- The euclidean distance computation dx*dx + dy*dy fed to Math.sqrt. -/
def dist (sqrt : ℚ → ℚ) (a b : Position) : ℚ :=
  sqrt ((b.x - a.x) * (b.x - a.x) + (b.y - a.y) * (b.y - a.y))

/-- The scan loop of checkForAutoTarget: fold over all units keeping the
nearest living enemy the scanning unit can attack within detection range.
The accumulator none models nearestDistance = Infinity. -/
def autoTargetScan (sqrt : ℚ → ℚ) (u : GUnit) :
    List GUnit → Option (GUnit × ℚ) → Option (GUnit × ℚ)
  | [], acc => acc
  | other :: rest, acc =>
    autoTargetScan sqrt u rest
      (if other.isDead = true ∨ other.playerId = u.playerId then acc
       else if canUnitAttackTarget u other = false then acc
       else
         let d := dist sqrt u.position other.position
         match acc with
         | none => if d ≤ u.range * 25 then some (other, d) else none
         | some (b, best) =>
           if d ≤ u.range * 25 ∧ d < best then some (other, d) else some (b, best))

/-- checkForAutoTarget from engine.ts: only units neither attacking nor
moving scan; on a hit the internal attackUnit command is issued. -/
def checkForAutoTarget (sqrt : ℚ → ℚ) (e : Engine) (unitId : ℕ) : Engine :=
  match lookupUnit e.units unitId with
  | none => e
  | some u =>
    if u.isAttacking = true ∨ u.isMoving = true then e
    else
      match autoTargetScan sqrt u e.units none with
      | none => e
      | some (enemy, _) => (attackUnit e unitId enemy.id).2

/-- The movement block of the per-unit update: advance toward the front
waypoint, popping it inside one distance unit. -/
def movementPhase (sqrt : ℚ → ℚ) (δ : ℚ) (e : Engine) (unitId : ℕ) : Engine :=
  match lookupUnit e.units unitId with
  | none => e
  | some u =>
    match u.path with
    | [] => e
    | targetPos :: rest =>
      if u.isMoving = false then e
      else
        let dx := targetPos.x - u.position.x
        let dy := targetPos.y - u.position.y
        let d := sqrt (dx * dx + dy * dy)
        if d < 1 then
          { e with
            units := setUnit e.units unitId (fun v =>
              { v with
                path := rest
                isMoving := if rest = [] then false else v.isMoving }) }
        else
          let frac := min (u.speed * δ * 60 / d) 1
          { e with
            units := setUnit e.units unitId (fun v =>
              { v with position := ⟨u.position.x + dx * frac, u.position.y + dy * frac⟩ }) }

/-- Clearing of a lapsed attack order. -/
def clearAttack (v : GUnit) : GUnit :=
  { v with isAttacking := false, targetId := none }

/-- The combat block of the per-unit update: drop lapsed or incapable
targets, hit once per whole-second boundary inside range, chase
otherwise; a kill clamps health to zero, marks dead and filters the dead
id out of the owning player roster. -/
def combatPhase (sqrt : ℚ → ℚ) (δ : ℚ) (e : Engine) (unitId : ℕ) : Engine :=
  match lookupUnit e.units unitId with
  | none => e
  | some u =>
    if u.isAttacking = false then e
    else
      match u.targetId with
      | none => e
      | some tid =>
        match lookupUnit e.units tid with
        | none => { e with units := setUnit e.units unitId clearAttack }
        | some target =>
          if target.isDead = true then
            { e with units := setUnit e.units unitId clearAttack }
          else if canUnitAttackTarget u target = false then
            { e with units := setUnit e.units unitId clearAttack }
          else
            let dx := target.position.x - u.position.x
            let dy := target.position.y - u.position.y
            let d := sqrt (dx * dx + dy * dy)
            if d ≤ u.range * 20 then
              if ⌊e.gameTime⌋ > ⌊e.gameTime - δ⌋ then
                let damage := max 1 (u.attack - target.defense / 2)
                let h := target.health - damage
                if h ≤ 0 then
                  { e with
                    units := setUnit e.units tid (fun v =>
                      { v with health := 0, isDead := true })
                    players := setPlayer e.players target.playerId (fun p =>
                      { p with unitIds := p.unitIds.filter (fun i => i != tid) }) }
                else
                  { e with units := setUnit e.units tid (fun v => { v with health := h }) }
              else e
            else
              let frac := min (u.speed * δ * 60 / d) 1
              { e with
                units := setUnit e.units unitId (fun v =>
                  { v with position := ⟨u.position.x + dx * frac, u.position.y + dy * frac⟩ }) }

/-- One iteration of the updateUnits forEach: dead units are skipped,
then auto-targeting, movement and combat run in order on live state. -/
def updateOneUnit (sqrt : ℚ → ℚ) (δ : ℚ) (e : Engine) (unitId : ℕ) : Engine :=
  match lookupUnit e.units unitId with
  | none => e
  | some u =>
    if u.isDead = true then e
    else
      combatPhase sqrt δ
        (movementPhase sqrt δ (checkForAutoTarget sqrt e unitId) unitId) unitId

/-- updateUnits from engine.ts: the id snapshot is taken once
(Object.values), each unit is then processed on live state. -/
def updateUnits (sqrt : ℚ → ℚ) (δ : ℚ) (e : Engine) : Engine :=
  (e.units.map (fun u => u.id)).foldl (updateOneUnit sqrt δ) e

/-- updateResources from engine.ts: collected resources count down and
respawn with full amount and reset timer. -/
def updateResources (δ : ℚ) (e : Engine) : Engine :=
  { e with
    resources := e.resources.map (fun r =>
      if r.isCollected = true then
        let rt := r.respawnTime - δ
        if rt ≤ 0 then
          { r with
            isCollected := false
            amount := resourceAmount
            respawnTime := resourceRespawnTime }
        else { r with respawnTime := rt }
      else r) }

/-- The collection radius of collectResources. -/
def collectionRange : ℚ := 30

/-- The roster scan of collectResources: some living soldier of the
roster lies strictly within the collection radius of the resource. -/
def soldierNear (sqrt : ℚ → ℚ) (us : List GUnit) (roster : List ℕ) (r : Resource) : Bool :=
  (roster.filterMap (lookupUnit us)).any (fun u =>
    !u.isDead && u.type == UnitType.SOLDIER &&
      decide (dist sqrt u.position r.position < collectionRange))

/-- The per-player body of the collectResources inner loop: if some
living soldier of the roster is in radius, credit the captured resource
amount and set the collected flag (note: the flag is not re-tested
here). -/
def collectPlayerStep (sqrt : ℚ → ℚ) (r : Resource) (rid : ℕ) (st : Engine) (pid : ℕ) :
    Engine :=
  match lookupPlayer st.players pid with
  | none => st
  | some p =>
    if soldierNear sqrt st.units p.unitIds r then
      { st with
        players := setPlayer st.players pid (fun q =>
          { q with money := q.money + r.amount })
        resources := setResource st.resources rid (fun s =>
          { s with isCollected := true }) }
    else st

/-- The per-resource body of collectResources: the collected flag is
tested once on entry, then every player with a qualifying soldier is
credited the amount and the flag is set. -/
def collectForResource (sqrt : ℚ → ℚ) (rid : ℕ) (e : Engine) : Engine :=
  match lookupResource e.resources rid with
  | none => e
  | some r =>
    if r.isCollected = true then e
    else (e.players.map (fun p => p.id)).foldl (collectPlayerStep sqrt r rid) e

/-- collectResources from engine.ts. -/
def collectResources (sqrt : ℚ → ℚ) (e : Engine) : Engine :=
  (e.resources.map (fun r => r.id)).foldl
    (fun st rid => collectForResource sqrt rid st) e

/-- update from engine.ts: advance game time by the elapsed delta (the
Date.now difference, passed as parameter), then units, resource respawn
and collection. -/
def update (sqrt : ℚ → ℚ) (e : Engine) (δ : ℚ) : Engine :=
  let e1 := { e with gameTime := e.gameTime + δ }
  collectResources sqrt (updateResources δ (updateUnits sqrt δ e1))

/-- One engine transition: a public command or one step of the driver
loop.  Random inputs and the tick delta are arbitrary. -/
inductive Step : Engine → Engine → Prop where
  | addPlayer (e : Engine) (nm : String) (fac : FactionType) (pos : Position) :
      Step e (addPlayer e nm fac pos).2
  | createUnit (e : Engine) (pid : ℕ) (t : UnitType) (pos : Position) :
      Step e (createUnit e pid t pos).2
  | moveUnit (e : Engine) (uid : ℕ) (pos : Position) :
      Step e (moveUnit e uid pos).2
  | attackUnit (e : Engine) (a t : ℕ) :
      Step e (attackUnit e a t).2
  | update (e : Engine) (sqrt : ℚ → ℚ) (δ : ℚ) :
      Step e (update sqrt e δ)

/-- States reachable from a freshly constructed engine by engine
transitions. -/
inductive Reachable : Engine → Prop where
  | init (w h : ℚ) (spots : List Position) : Reachable (initEngine w h spots)
  | step {e e' : Engine} : Reachable e → Step e e' → Reachable e'

/-- The safety and well-formedness invariant of engine states: balances
and resource amounts never negative, health never negative, dead units
have exactly zero health, every roster id points at a living unit owned
by that player, and ids are unique and below the freshness counter. -/
structure Inv (e : Engine) : Prop where
  moneyNonneg : ∀ p ∈ e.players, 0 ≤ p.money
  amountNonneg : ∀ r ∈ e.resources, 0 ≤ r.amount
  healthNonneg : ∀ u ∈ e.units, 0 ≤ u.health
  deadZero : ∀ u ∈ e.units, u.isDead = true → u.health = 0
  rosterLive : ∀ p ∈ e.players, ∀ uid ∈ p.unitIds, ∀ u ∈ e.units, u.id = uid →
    u.isDead = false ∧ u.playerId = p.id
  unitIdsNodup : (e.units.map (fun u => u.id)).Nodup
  unitIdsLt : ∀ u ∈ e.units, u.id < e.nextId
  playerIdsNodup : (e.players.map (fun p => p.id)).Nodup
  playerIdsLt : ∀ p ∈ e.players, p.id < e.nextId
  rosterIdsLt : ∀ p ∈ e.players, ∀ uid ∈ p.unitIds, uid < e.nextId

/-- A unit edit that keeps identity, life status, owner and health (all
edits of the per-tick pass except damage application are of this kind). -/
def SafeUnitEdit (f : GUnit → GUnit) : Prop :=
  ∀ v, (f v).id = v.id ∧ (f v).isDead = v.isDead ∧ (f v).playerId = v.playerId ∧
    (f v).health = v.health

/-! ### Concrete states used by witnesses and counterexamples -/

/-- A two-player state holding a tank (player 0) and a helicopter
(player 1), both alive. -/
def tankHeliState : Engine :=
  { players :=
      [{ id := 0, name := "A", faction := .USA, money := 0, unitIds := [2],
         basePosition := ⟨0, 0⟩, color := "#FF5733" },
       { id := 1, name := "B", faction := .CHINA, money := 0, unitIds := [3],
         basePosition := ⟨100, 0⟩, color := "#33FF57" }]
    units := [mkUnit 2 .TANK ⟨0, 0⟩ 0, mkUnit 3 .HELICOPTER ⟨100, 0⟩ 1]
    resources := []
    gameTime := 0
    mapWidth := 900
    mapHeight := 600
    nextId := 4 }

/-- A one-player state used as a concrete input by several witnesses:
player 0 with 800 money and an empty roster. -/
def soloState : Engine :=
  { players := [{ id := 0, name := "A", faction := .USA, money := 800, unitIds := [],
                  basePosition := ⟨0, 0⟩, color := "#FF5733" }]
    units := []
    resources := []
    gameTime := 0
    mapWidth := 900
    mapHeight := 600
    nextId := 1 }

/-- The state soloState reaches after buying one soldier at ⟨5, 5⟩. -/
def soloAfter : Engine :=
  { players := [{ id := 0, name := "A", faction := .USA, money := 650, unitIds := [1],
                  basePosition := ⟨0, 0⟩, color := "#FF5733" }]
    units := [mkUnit 1 .SOLDIER ⟨5, 5⟩ 0]
    resources := []
    gameTime := 0
    mapWidth := 900
    mapHeight := 600
    nextId := 2 }

/-- The resource list a fresh engine built with the empty spot list
holds (all spot coordinates defaulting to the origin). -/
def zeroSpotResources : List Resource :=
  (List.range mapResourceCount).map (fun i =>
    { id := i, type := ResourceType.MONEY, position := ⟨0, 0⟩,
      amount := resourceAmount, respawnTime := resourceRespawnTime,
      isCollected := false })

/-- The state right after the player record is admitted, before the
starter purchases. -/
def starterE0 : Engine :=
  { players := [{ id := 15, name := "P1", faction := .USA, money := 800, unitIds := [],
                  basePosition := ⟨450, 300⟩, color := "#FF5733" }]
    units := []
    resources := zeroSpotResources
    gameTime := 0
    mapWidth := 900
    mapHeight := 600
    nextId := 16 }

/-- The state after the two starter soldier purchases succeed (800 - 150
- 165 = 485 money left). -/
def starterE2 : Engine :=
  { players := [{ id := 15, name := "P1", faction := .USA, money := 485,
                  unitIds := [16, 17], basePosition := ⟨450, 300⟩, color := "#FF5733" }]
    units := [mkUnit 16 .SOLDIER ⟨430, 280⟩ 15, mkUnit 17 .SOLDIER ⟨470, 280⟩ 15]
    resources := zeroSpotResources
    gameTime := 0
    mapWidth := 900
    mapHeight := 600
    nextId := 18 }

/-- A square-root oracle that is exact at the only input the concrete
states below ever feed it: Math.sqrt 0 = 0 (all computed distances in
those states are zero). -/
def zeroSqrt : ℚ → ℚ := fun _ => 0

/-- The state reached from a fresh 900x600 engine by admitting players
A (base 100,100) and B (base 500,500): each got its two starter soldiers
(the starter tank purchase fails) and keeps 485 money. -/
def c2E2 : Engine :=
  { players :=
      [{ id := 15, name := "A", faction := .USA, money := 485, unitIds := [16, 17],
         basePosition := ⟨100, 100⟩, color := "#FF5733" },
       { id := 18, name := "B", faction := .CHINA, money := 485, unitIds := [19, 20],
         basePosition := ⟨500, 500⟩, color := "#33FF57" }]
    units := [mkUnit 16 .SOLDIER ⟨80, 80⟩ 15, mkUnit 17 .SOLDIER ⟨120, 80⟩ 15,
              mkUnit 19 .SOLDIER ⟨480, 480⟩ 18, mkUnit 20 .SOLDIER ⟨520, 480⟩ 18]
    resources := zeroSpotResources
    gameTime := 0
    mapWidth := 900
    mapHeight := 600
    nextId := 21 }

/-- The command chain refuting the mode-flag invariant: admit two
players, order soldier 16 to move, then order it to attack enemy
soldier 19. -/
def c2Chain : Engine :=
  (attackUnit (moveUnit ((addPlayer ((addPlayer (initEngine 900 600 [])
    "A" .USA ⟨100, 100⟩).2) "B" .CHINA ⟨500, 500⟩).2) 16 ⟨300, 300⟩).2 16 19).2

/-- A dead soldier record (health clamped to zero). -/
def deadSoldier : GUnit :=
  { id := 7, type := .SOLDIER, position := ⟨1, 2⟩, health := 0, maxHealth := 100,
    attack := 10, defense := 5, range := 3, speed := 2, playerId := 0,
    targetId := none, path := [], isDead := true, isMoving := false,
    isAttacking := false, canAttackAir := true, canAttackGround := true }

/-- A state holding a dead unit, for the dead-frame witnesses. -/
def deadState : Engine :=
  { players := [{ id := 0, name := "A", faction := .USA, money := 100, unitIds := [],
                  basePosition := ⟨0, 0⟩, color := "#FF5733" }]
    units := [deadSoldier]
    resources := []
    gameTime := 0
    mapWidth := 900
    mapHeight := 600
    nextId := 8 }

/-- Two players with one living soldier each, both standing exactly on
the single uncollected resource node at the origin; both players start
with zero money.  All euclidean distances computed in this state are
zero, so zeroSqrt agrees with Math.sqrt on every evaluated input. -/
def collideState : Engine :=
  { players :=
      [{ id := 0, name := "A", faction := .USA, money := 0, unitIds := [2],
         basePosition := ⟨0, 0⟩, color := "#FF5733" },
       { id := 1, name := "B", faction := .CHINA, money := 0, unitIds := [3],
         basePosition := ⟨0, 0⟩, color := "#33FF57" }]
    units := [mkUnit 2 .SOLDIER ⟨0, 0⟩ 0, mkUnit 3 .SOLDIER ⟨0, 0⟩ 1]
    resources := [{ id := 4, type := .MONEY, position := ⟨0, 0⟩, amount := 150,
                    respawnTime := 30, isCollected := false }]
    gameTime := 0
    mapWidth := 900
    mapHeight := 600
    nextId := 5 }

/-- collideState after the tick has advanced game time to 1. -/
def collideTick : Engine :=
  { players :=
      [{ id := 0, name := "A", faction := .USA, money := 0, unitIds := [2],
         basePosition := ⟨0, 0⟩, color := "#FF5733" },
       { id := 1, name := "B", faction := .CHINA, money := 0, unitIds := [3],
         basePosition := ⟨0, 0⟩, color := "#33FF57" }]
    units := [mkUnit 2 .SOLDIER ⟨0, 0⟩ 0, mkUnit 3 .SOLDIER ⟨0, 0⟩ 1]
    resources := [{ id := 4, type := .MONEY, position := ⟨0, 0⟩, amount := 150,
                    respawnTime := 30, isCollected := false }]
    gameTime := 1
    mapWidth := 900
    mapHeight := 600
    nextId := 5 }

/-- collideTick after soldier 2 has auto-engaged and hit soldier 3. -/
def collideAfter2 : Engine :=
  { players :=
      [{ id := 0, name := "A", faction := .USA, money := 0, unitIds := [2],
         basePosition := ⟨0, 0⟩, color := "#FF5733" },
       { id := 1, name := "B", faction := .CHINA, money := 0, unitIds := [3],
         basePosition := ⟨0, 0⟩, color := "#33FF57" }]
    units :=
      [{ id := 2, type := .SOLDIER, position := ⟨0, 0⟩, health := 100,
         maxHealth := 100, attack := 10, defense := 5, range := 3, speed := 2,
         playerId := 0, targetId := some 3, path := [], isDead := false,
         isMoving := false, isAttacking := true, canAttackAir := true,
         canAttackGround := true },
       { id := 3, type := .SOLDIER, position := ⟨0, 0⟩, health := 185 / 2,
         maxHealth := 100, attack := 10, defense := 5, range := 3, speed := 2,
         playerId := 1, targetId := none, path := [], isDead := false,
         isMoving := false, isAttacking := false, canAttackAir := true,
         canAttackGround := true }]
    resources := [{ id := 4, type := .MONEY, position := ⟨0, 0⟩, amount := 150,
                    respawnTime := 30, isCollected := false }]
    gameTime := 1
    mapWidth := 900
    mapHeight := 600
    nextId := 5 }

/-- collideAfter2 after soldier 3 has auto-engaged and hit back. -/
def collideAfter3 : Engine :=
  { players :=
      [{ id := 0, name := "A", faction := .USA, money := 0, unitIds := [2],
         basePosition := ⟨0, 0⟩, color := "#FF5733" },
       { id := 1, name := "B", faction := .CHINA, money := 0, unitIds := [3],
         basePosition := ⟨0, 0⟩, color := "#33FF57" }]
    units :=
      [{ id := 2, type := .SOLDIER, position := ⟨0, 0⟩, health := 185 / 2,
         maxHealth := 100, attack := 10, defense := 5, range := 3, speed := 2,
         playerId := 0, targetId := some 3, path := [], isDead := false,
         isMoving := false, isAttacking := true, canAttackAir := true,
         canAttackGround := true },
       { id := 3, type := .SOLDIER, position := ⟨0, 0⟩, health := 185 / 2,
         maxHealth := 100, attack := 10, defense := 5, range := 3, speed := 2,
         playerId := 1, targetId := some 2, path := [], isDead := false,
         isMoving := false, isAttacking := true, canAttackAir := true,
         canAttackGround := true }]
    resources := [{ id := 4, type := .MONEY, position := ⟨0, 0⟩, amount := 150,
                    respawnTime := 30, isCollected := false }]
    gameTime := 1
    mapWidth := 900
    mapHeight := 600
    nextId := 5 }

/-- The end of the tick: both players were credited the one resource. -/
def collideFinal : Engine :=
  { players :=
      [{ id := 0, name := "A", faction := .USA, money := 150, unitIds := [2],
         basePosition := ⟨0, 0⟩, color := "#FF5733" },
       { id := 1, name := "B", faction := .CHINA, money := 150, unitIds := [3],
         basePosition := ⟨0, 0⟩, color := "#33FF57" }]
    units :=
      [{ id := 2, type := .SOLDIER, position := ⟨0, 0⟩, health := 185 / 2,
         maxHealth := 100, attack := 10, defense := 5, range := 3, speed := 2,
         playerId := 0, targetId := some 3, path := [], isDead := false,
         isMoving := false, isAttacking := true, canAttackAir := true,
         canAttackGround := true },
       { id := 3, type := .SOLDIER, position := ⟨0, 0⟩, health := 185 / 2,
         maxHealth := 100, attack := 10, defense := 5, range := 3, speed := 2,
         playerId := 1, targetId := some 2, path := [], isDead := false,
         isMoving := false, isAttacking := true, canAttackAir := true,
         canAttackGround := true }]
    resources := [{ id := 4, type := .MONEY, position := ⟨0, 0⟩, amount := 150,
                    respawnTime := 30, isCollected := true }]
    gameTime := 1
    mapWidth := 900
    mapHeight := 600
    nextId := 5 }

/-- The boolean qualification test of the collection pass, applied to a
roster: some living soldier of the roster stands strictly inside the
collection radius of the resource. -/
def anyQualifies (sqrt : ℚ → ℚ) (r : Resource) (st : Engine) (pids : List ℕ) : Bool :=
  pids.any (fun pid =>
    ((lookupPlayer st.players pid).map (fun p =>
      soldierNear sqrt st.units p.unitIds r)).getD false)

/-- The amount the collection pass credits a roster for one resource id:
the resource amount if the resource exists, is uncollected and a living
soldier of the roster is in radius; zero otherwise. -/
def creditOf (sqrt : ℚ → ℚ) (st : Engine) (roster : List ℕ) (rid : ℕ) : ℚ :=
  match lookupResource st.resources rid with
  | none => 0
  | some r =>
    if r.isCollected = false ∧ soldierNear sqrt st.units roster r = true then r.amount
    else 0

/-- A duel frozen mid-flight: helicopter 2 (player 0) holds a live
attack order on tank 3 (player 1); both stand at the origin; the tank
cannot attack air so it never auto-engages back.  The game clock reads
g and the tank's health is h; every other field is constant. -/
def duelMid (g h : ℚ) : Engine :=
  { players :=
      [{ id := 0, name := "A", faction := .USA, money := 0, unitIds := [2],
         basePosition := ⟨0, 0⟩, color := "#FF5733" },
       { id := 1, name := "B", faction := .CHINA, money := 0, unitIds := [3],
         basePosition := ⟨0, 0⟩, color := "#33FF57" }]
    units :=
      [{ id := 2, type := .HELICOPTER, position := ⟨0, 0⟩, health := 200,
         maxHealth := 200, attack := 25, defense := 10, range := 7, speed := 3,
         playerId := 0, targetId := some 3, path := [], isDead := false,
         isMoving := false, isAttacking := true, canAttackAir := true,
         canAttackGround := true },
       { id := 3, type := .TANK, position := ⟨0, 0⟩, health := h,
         maxHealth := 300, attack := 30, defense := 20, range := 5, speed := 3 / 2,
         playerId := 1, targetId := none, path := [], isDead := false,
         isMoving := false, isAttacking := false, canAttackAir := false,
         canAttackGround := true }]
    resources := []
    gameTime := g
    mapWidth := 900
    mapHeight := 600
    nextId := 4 }

/-- The duel at game time t: the tank has taken one 15-point hit per
whole second elapsed (damage max 1 (25 - 20/2) = 15 per boundary). -/
def duelState (t : ℚ) : Engine :=
  duelMid t (300 - 15 * (⌊t⌋ : ℚ))

/-! ### Basic lemmas about the id-keyed list maps -/

theorem find?_map_comm {α : Type} (g : α → α) (p : α → Bool) (l : List α)
    (hp : ∀ a, p (g a) = p a) : (l.map g).find? p = (l.find? p).map g := by
  induction l with
  | nil => rfl
  | cons a l ih =>
    simp only [List.map_cons, List.find?_cons, hp a]
    cases h : p a <;> simp [ih]

theorem lookupUnit_setUnit (us : List GUnit) (tid : ℕ) (f : GUnit → GUnit)
    (hf : ∀ u, (f u).id = u.id) (uid : ℕ) :
    lookupUnit (setUnit us tid f) uid
      = (lookupUnit us uid).map (fun u => if u.id = tid then f u else u) := by
  unfold lookupUnit setUnit
  exact find?_map_comm _ _ _ (fun a => by by_cases h : a.id = tid <;> simp [h, hf])

theorem lookupPlayer_setPlayer (ps : List Player) (tid : ℕ) (f : Player → Player)
    (hf : ∀ p, (f p).id = p.id) (pid : ℕ) :
    lookupPlayer (setPlayer ps tid f) pid
      = (lookupPlayer ps pid).map (fun p => if p.id = tid then f p else p) := by
  unfold lookupPlayer setPlayer
  exact find?_map_comm _ _ _ (fun a => by by_cases h : a.id = tid <;> simp [h, hf])

theorem lookupResource_setResource (rs : List Resource) (tid : ℕ) (f : Resource → Resource)
    (hf : ∀ r, (f r).id = r.id) (rid : ℕ) :
    lookupResource (setResource rs tid f) rid
      = (lookupResource rs rid).map (fun r => if r.id = tid then f r else r) := by
  unfold lookupResource setResource
  exact find?_map_comm _ _ _ (fun a => by by_cases h : a.id = tid <;> simp [h, hf])

theorem lookupUnit_id {us : List GUnit} {uid : ℕ} {u : GUnit}
    (h : lookupUnit us uid = some u) : u.id = uid := by
  have := List.find?_some h
  simpa using this

theorem lookupUnit_mem {us : List GUnit} {uid : ℕ} {u : GUnit}
    (h : lookupUnit us uid = some u) : u ∈ us :=
  List.mem_of_find?_eq_some h

theorem lookupPlayer_id {ps : List Player} {pid : ℕ} {p : Player}
    (h : lookupPlayer ps pid = some p) : p.id = pid := by
  have := List.find?_some h
  simpa using this

theorem lookupPlayer_mem {ps : List Player} {pid : ℕ} {p : Player}
    (h : lookupPlayer ps pid = some p) : p ∈ ps :=
  List.mem_of_find?_eq_some h

theorem lookupResource_id {rs : List Resource} {rid : ℕ} {r : Resource}
    (h : lookupResource rs rid = some r) : r.id = rid := by
  have := List.find?_some h
  simpa using this

theorem lookupResource_mem {rs : List Resource} {rid : ℕ} {r : Resource}
    (h : lookupResource rs rid = some r) : r ∈ rs :=
  List.mem_of_find?_eq_some h

/-! ### Evaluation of the cost schedule at the points the proofs use -/

theorem scaledUnitCost_SOLDIER_0 : scaledUnitCost .SOLDIER 0 = 150 := by
  unfold scaledUnitCost baseUnitCost
  have h : (150 : ℚ) * (1 + ((0 : ℕ) : ℚ) * (1 / 10)) = ((150 : ℤ) : ℚ) := by norm_num
  rw [h, Int.floor_intCast]
  norm_num

theorem scaledUnitCost_SOLDIER_1 : scaledUnitCost .SOLDIER 1 = 165 := by
  unfold scaledUnitCost baseUnitCost
  have h : (150 : ℚ) * (1 + ((1 : ℕ) : ℚ) * (1 / 10)) = ((165 : ℤ) : ℚ) := by norm_num
  rw [h, Int.floor_intCast]
  norm_num

theorem scaledUnitCost_TANK_2 : scaledUnitCost .TANK 2 = 540 := by
  unfold scaledUnitCost baseUnitCost
  have h : (450 : ℚ) * (1 + ((2 : ℕ) : ℚ) * (1 / 10)) = ((540 : ℤ) : ℚ) := by norm_num
  rw [h, Int.floor_intCast]
  norm_num

/-! ### Claim C5: failed unit creation leaves the world unchanged -/

/-- C5: whenever the owning player is unknown or its balance is strictly
below the scaled price, createUnit returns the failure indicator none and
the whole engine state is returned unchanged. -/
theorem C5_createUnit_failure_unchanged (e : Engine) (pid : ℕ) (t : UnitType)
    (pos : Position)
    (h : lookupPlayer e.players pid = none ∨
      ∃ p, lookupPlayer e.players pid = some p ∧
        p.money < scaledUnitCost t p.unitIds.length) :
    createUnit e pid t pos = (none, e) := by
  rcases h with h | ⟨p, hp, hlt⟩
  · simp [createUnit, h]
  · simp [createUnit, hp, hlt]

/-- Witness for C5 at a concrete input: no player exists in a fresh
engine, so creation fails and the state is untouched. -/
theorem C5_createUnit_failure_unchanged_witness :
    createUnit (initEngine 900 600 []) 0 UnitType.SOLDIER ⟨0, 0⟩
      = (none, initEngine 900 600 []) :=
  C5_createUnit_failure_unchanged (initEngine 900 600 []) 0 UnitType.SOLDIER ⟨0, 0⟩
    (Or.inl (by decide))

/-! ### Claim C8: capability-mismatched attack command is rejected -/

/-- C8: an attack command whose attacker cannot engage the target
category (canUnitAttackTarget is false, as for a tank ordered against a
helicopter) returns false and leaves the whole state unchanged. -/
theorem C8_incapable_attack_rejected (e : Engine) (a t : ℕ) (ua ut : GUnit)
    (ha : lookupUnit e.units a = some ua) (ht : lookupUnit e.units t = some ut)
    (hc : canUnitAttackTarget ua ut = false) :
    attackUnit e a t = (false, e) := by
  simp only [attackUnit, ha, ht]
  by_cases h1 : ua.isDead = true ∨ ut.isDead = true ∨ ua.playerId = ut.playerId
  · simp [h1]
  · simp [h1, hc]

/-- Witness for C8 at the concrete scenario of the claim: the tank
(canAttackAir = false) ordered against the helicopter is rejected with no
state change. -/
theorem C8_incapable_attack_rejected_witness :
    attackUnit tankHeliState 2 3 = (false, tankHeliState) :=
  C8_incapable_attack_rejected tankHeliState 2 3
    (mkUnit 2 .TANK ⟨0, 0⟩ 0) (mkUnit 3 .HELICOPTER ⟨100, 0⟩ 1)
    rfl rfl rfl

/-! ### Claim C4: the scaled price charged by createUnit -/

/-- C4: a successful createUnit charges exactly
floor(base price times (1 + N times 0.1)) where N is the unit count of
the owner immediately before the purchase: the charge is recomputed from
the live roster length, the success guard is balance not below it, and
the balance after equals the balance before minus it. -/
theorem C4_scaled_price_charged (e : Engine) (pid : ℕ) (t : UnitType) (pos : Position)
    (p : Player) (uid : ℕ) (e' : Engine)
    (hp : lookupPlayer e.players pid = some p)
    (h : createUnit e pid t pos = (some uid, e')) :
    scaledUnitCost t p.unitIds.length
        = ((⌊baseUnitCost t * (1 + (p.unitIds.length : ℚ) * (1 / 10))⌋ : ℤ) : ℚ) ∧
      ¬ p.money < scaledUnitCost t p.unitIds.length ∧
      (lookupPlayer e'.players pid).map Player.money
        = some (p.money - scaledUnitCost t p.unitIds.length) := by
  simp only [createUnit, hp] at h
  by_cases hlt : p.money < scaledUnitCost t p.unitIds.length
  · simp [hlt] at h
  · refine ⟨rfl, hlt, ?_⟩
    simp only [hlt, if_false, Prod.mk.injEq] at h
    rw [← h.2]
    dsimp only
    rw [lookupPlayer_setPlayer]
    · rw [hp]
      have hid := lookupPlayer_id hp
      simp [hid]
    · intro q
      rfl

theorem createUnit_soloState :
    createUnit soloState 0 UnitType.SOLDIER ⟨5, 5⟩ = (some 1, soloAfter) := by
  norm_num [createUnit, soloState, lookupPlayer, List.find?, scaledUnitCost_SOLDIER_0,
    setPlayer, soloAfter]

/-- Witness for C4 at a concrete input: player 0 of soloState owns no
unit, so a soldier costs floor(150 times 1.0) = 150, leaving 650. -/
theorem C4_scaled_price_charged_witness :
    scaledUnitCost .SOLDIER 0
        = ((⌊baseUnitCost .SOLDIER * (1 + ((0 : ℕ) : ℚ) * (1 / 10))⌋ : ℤ) : ℚ) ∧
      ¬ (800 : ℚ) < scaledUnitCost .SOLDIER 0 ∧
      (lookupPlayer soloAfter.players 0).map Player.money
        = some (800 - scaledUnitCost .SOLDIER 0) :=
  C4_scaled_price_charged soloState 0 .SOLDIER ⟨5, 5⟩
    { id := 0, name := "A", faction := .USA, money := 800, unitIds := [],
      basePosition := ⟨0, 0⟩, color := "#FF5733" }
    1 soloAfter rfl createUnit_soloState

/-! ### Claim C3: the starter roster addPlayer actually produces -/

/-- C3 (divergence witness): addPlayer on a fresh engine leaves the new
player with only the two starter soldiers and 485 money: the third
starter purchase, the tank, needs floor(450 times 1.2) = 540 but only
800 - 150 - 165 = 485 remains, so it silently fails and no tank is ever
part of the starter roster. -/
theorem C3_starter_roster_missing_tank :
    (lookupPlayer ((addPlayer (initEngine 900 600 []) "P1" FactionType.USA
        ⟨450, 300⟩).2).players 15).map
        (fun p => (p.money,
          (p.unitIds.filterMap (lookupUnit ((addPlayer (initEngine 900 600 [])
            "P1" FactionType.USA ⟨450, 300⟩).2).units)).map GUnit.type))
      = some (485, [UnitType.SOLDIER, UnitType.SOLDIER]) := by
  have h1 : createUnit starterE0 15 .SOLDIER ⟨430, 280⟩
      = (some 16,
        { players := [{ id := 15, name := "P1", faction := .USA, money := 650,
                        unitIds := [16], basePosition := ⟨450, 300⟩, color := "#FF5733" }]
          units := [mkUnit 16 .SOLDIER ⟨430, 280⟩ 15]
          resources := zeroSpotResources
          gameTime := 0
          mapWidth := 900
          mapHeight := 600
          nextId := 17 }) := by
    norm_num [createUnit, starterE0, lookupPlayer, List.find?, scaledUnitCost_SOLDIER_0,
      setPlayer]
  have h2 : createUnit (createUnit starterE0 15 .SOLDIER ⟨430, 280⟩).2
      15 .SOLDIER ⟨470, 280⟩ = (some 17, starterE2) := by
    rw [h1]
    norm_num [createUnit, starterE2, lookupPlayer, List.find?, scaledUnitCost_SOLDIER_1,
      setPlayer]
  have h3 : createUnit (createUnit (createUnit starterE0 15 .SOLDIER ⟨430, 280⟩).2
      15 .SOLDIER ⟨470, 280⟩).2 15 .TANK ⟨450, 320⟩ = (none, starterE2) := by
    rw [h2]
    norm_num [createUnit, starterE2, lookupPlayer, List.find?, scaledUnitCost_TANK_2]
  have h0 : (addPlayer (initEngine 900 600 []) "P1" FactionType.USA ⟨450, 300⟩).2
      = (createUnit (createUnit (createUnit starterE0 15 .SOLDIER ⟨430, 280⟩).2
          15 .SOLDIER ⟨470, 280⟩).2 15 .TANK ⟨450, 320⟩).2 := by
    norm_num [addPlayer, initEngine, starterE0, playerColors, zeroSpotResources,
      mapResourceCount, startingMoney]
  rw [h0, h3]
  rfl

/-! ### Claim C2: the mode-flag invariant -/

theorem addPlayer_twice_eval :
    (addPlayer ((addPlayer (initEngine 900 600 []) "A" .USA ⟨100, 100⟩).2)
      "B" .CHINA ⟨500, 500⟩).2 = c2E2 := by
  have hA : (addPlayer (initEngine 900 600 []) "A" .USA ⟨100, 100⟩).2
      = { players :=
            [{ id := 15, name := "A", faction := .USA, money := 485, unitIds := [16, 17],
               basePosition := ⟨100, 100⟩, color := "#FF5733" }]
          units := [mkUnit 16 .SOLDIER ⟨80, 80⟩ 15, mkUnit 17 .SOLDIER ⟨120, 80⟩ 15]
          resources := zeroSpotResources
          gameTime := 0
          mapWidth := 900
          mapHeight := 600
          nextId := 18 } := by
    norm_num [addPlayer, createUnit, initEngine, lookupPlayer, List.find?, setPlayer,
      scaledUnitCost_SOLDIER_0, scaledUnitCost_SOLDIER_1, scaledUnitCost_TANK_2,
      playerColors, mapResourceCount, startingMoney, zeroSpotResources]
  rw [hA]
  have hB1 : createUnit
      { players :=
          [{ id := 15, name := "A", faction := .USA, money := 485, unitIds := [16, 17],
             basePosition := ⟨100, 100⟩, color := "#FF5733" },
           { id := 18, name := "B", faction := .CHINA, money := 800, unitIds := [],
             basePosition := ⟨500, 500⟩, color := "#33FF57" }]
        units := [mkUnit 16 .SOLDIER ⟨80, 80⟩ 15, mkUnit 17 .SOLDIER ⟨120, 80⟩ 15]
        resources := zeroSpotResources
        gameTime := 0
        mapWidth := 900
        mapHeight := 600
        nextId := 19 } 18 .SOLDIER ⟨480, 480⟩
      = (some 19,
        { players :=
            [{ id := 15, name := "A", faction := .USA, money := 485, unitIds := [16, 17],
               basePosition := ⟨100, 100⟩, color := "#FF5733" },
             { id := 18, name := "B", faction := .CHINA, money := 650, unitIds := [19],
               basePosition := ⟨500, 500⟩, color := "#33FF57" }]
          units := [mkUnit 16 .SOLDIER ⟨80, 80⟩ 15, mkUnit 17 .SOLDIER ⟨120, 80⟩ 15,
                    mkUnit 19 .SOLDIER ⟨480, 480⟩ 18]
          resources := zeroSpotResources
          gameTime := 0
          mapWidth := 900
          mapHeight := 600
          nextId := 20 }) := by
    norm_num +decide [createUnit, lookupPlayer, scaledUnitCost_SOLDIER_0, setPlayer]
  have hB2 : createUnit
      { players :=
          [{ id := 15, name := "A", faction := .USA, money := 485, unitIds := [16, 17],
             basePosition := ⟨100, 100⟩, color := "#FF5733" },
           { id := 18, name := "B", faction := .CHINA, money := 650, unitIds := [19],
             basePosition := ⟨500, 500⟩, color := "#33FF57" }]
        units := [mkUnit 16 .SOLDIER ⟨80, 80⟩ 15, mkUnit 17 .SOLDIER ⟨120, 80⟩ 15,
                  mkUnit 19 .SOLDIER ⟨480, 480⟩ 18]
        resources := zeroSpotResources
        gameTime := 0
        mapWidth := 900
        mapHeight := 600
        nextId := 20 } 18 .SOLDIER ⟨520, 480⟩
      = (some 20, c2E2) := by
    norm_num +decide [createUnit, lookupPlayer, scaledUnitCost_SOLDIER_1, setPlayer,
      c2E2]
  have hB3 : createUnit c2E2 18 .TANK ⟨500, 520⟩ = (none, c2E2) := by
    norm_num +decide [createUnit, lookupPlayer, scaledUnitCost_TANK_2, c2E2]
  norm_num +decide [addPlayer, playerColors, startingMoney, hB1, hB2, hB3]

/-- C2 (counterexample): in the reachable state produced by admitting
two players, ordering soldier 16 to move and then ordering it to attack
enemy soldier 19, unit 16 is alive with both isMoving and isAttacking
true — the attack command does not clear an in-flight move order, so the
claimed at-most-one-of invariant fails. -/
theorem C2_flag_invariant_counterexample :
    Reachable c2Chain ∧
    (lookupUnit c2Chain.units 16).map (fun u => (u.isDead, u.isMoving, u.isAttacking))
      = some (false, true, true) := by
  constructor
  · unfold c2Chain
    exact Reachable.step (Reachable.step (Reachable.step (Reachable.step
      (Reachable.init 900 600 []) (Step.addPlayer _ "A" .USA ⟨100, 100⟩))
      (Step.addPlayer _ "B" .CHINA ⟨500, 500⟩)) (Step.moveUnit _ 16 ⟨300, 300⟩))
      (Step.attackUnit _ 16 19)
  · unfold c2Chain
    rw [addPlayer_twice_eval]
    norm_num +decide [moveUnit, attackUnit, lookupUnit, List.find?, setUnit, c2E2, mkUnit,
      unitStatsOf, canUnitAttackTarget]

/-- C2 (amended): what the commands actually guarantee about the mode
flags.  A created unit starts with dead, moving and attacking all false;
a successful move command leaves its subject alive with moving true and
attacking false; auto-engage never fires for a unit that is already
moving or attacking.  (The attack command on a moving unit sets both
flags, and death clears neither, so no stronger per-state invariant
holds.) -/
theorem C2_amended_flag_discipline :
    (∀ (e : Engine) (uid : ℕ) (pos : Position) (e' : Engine),
        moveUnit e uid pos = (true, e') →
        (lookupUnit e'.units uid).map (fun u => (u.isDead, u.isMoving, u.isAttacking))
          = some (false, true, false)) ∧
    (∀ (sq : ℚ → ℚ) (e : Engine) (uid : ℕ) (u : GUnit),
        lookupUnit e.units uid = some u →
        (u.isAttacking = true ∨ u.isMoving = true) →
        checkForAutoTarget sq e uid = e) ∧
    (∀ (e : Engine) (pid : ℕ) (t : UnitType) (pos : Position) (uid : ℕ) (e' : Engine),
        (∀ v ∈ e.units, v.id ≠ e.nextId) →
        createUnit e pid t pos = (some uid, e') →
        (lookupUnit e'.units uid).map (fun u => (u.isDead, u.isMoving, u.isAttacking))
          = some (false, false, false)) := by
  refine ⟨?_, ?_, ?_⟩
  · intro e uid pos e' h
    cases hm : lookupUnit e.units uid with
    | none => simp [moveUnit, hm] at h
    | some u =>
      by_cases hd : u.isDead = true
      · simp [moveUnit, hm, hd] at h
      · simp only [moveUnit, hm, hd, Bool.false_eq_true, if_false, Prod.mk.injEq,
          true_and] at h
        rw [← h]
        dsimp only
        rw [lookupUnit_setUnit]
        · rw [hm]
          have hd' : u.isDead = false := by
            cases hx : u.isDead
            · rfl
            · exact absurd hx hd
          simp [lookupUnit_id hm, hd']
        · intro v
          rfl
  · intro sq e uid u hm hor
    simp [checkForAutoTarget, hm, hor]
  · intro e pid t pos uid e' hfresh h
    cases hp : lookupPlayer e.players pid with
    | none => simp [createUnit, hp] at h
    | some p =>
      by_cases hlt : p.money < scaledUnitCost t p.unitIds.length
      · simp [createUnit, hp, hlt] at h
      · simp only [createUnit, hp, hlt, if_false, Prod.mk.injEq] at h
        obtain ⟨huid, he'⟩ := h
        rw [← he']
        dsimp only
        cases huid
        have hnone : List.find? (fun u => u.id == e.nextId) e.units = none := by
          rw [List.find?_eq_none]
          intro v hv
          simpa using hfresh v hv
        simp [lookupUnit, List.find?_append, hnone, List.find?, mkUnit]

/-- Witness for the amended C2 at a concrete input: soloAfter holds
soldier 1, and a move command on it yields moving without attacking. -/
theorem C2_amended_flag_discipline_witness :
    (lookupUnit ((moveUnit soloAfter 1 ⟨9, 9⟩).2).units 1).map
        (fun u => (u.isDead, u.isMoving, u.isAttacking))
      = some (false, true, false) :=
  C2_amended_flag_discipline.1 soloAfter 1 ⟨9, 9⟩ (moveUnit soloAfter 1 ⟨9, 9⟩).2 rfl

/-! ### Claim C9: a dead unit record is frozen -/

theorem lookupUnit_setUnit_other {us : List GUnit} {uid : ℕ} {u : GUnit}
    (h : lookupUnit us uid = some u) (w : ℕ) (f : GUnit → GUnit)
    (hf : ∀ v, (f v).id = v.id) (hne : w ≠ uid) :
    lookupUnit (setUnit us w f) uid = some u := by
  rw [lookupUnit_setUnit us w f hf uid, h]
  have hw : u.id ≠ w := by
    rw [lookupUnit_id h]
    exact fun hx => hne hx.symm
  simp [hw]

theorem attackUnit_dead_frame {e : Engine} {uid : ℕ} {u : GUnit}
    (h : lookupUnit e.units uid = some u) (hd : u.isDead = true) (a t : ℕ) :
    lookupUnit ((attackUnit e a t).2).units uid = some u := by
  unfold attackUnit
  cases ha : lookupUnit e.units a with
  | none => exact h
  | some attacker =>
    cases ht : lookupUnit e.units t with
    | none => exact h
    | some target =>
      by_cases hc1 : attacker.isDead = true ∨ target.isDead = true ∨
          attacker.playerId = target.playerId
      · simp only [hc1, if_true]
        exact h
      · by_cases hc2 : canUnitAttackTarget attacker target = false
        · simp only [hc1, if_false, hc2, if_true]
          exact h
        · simp only [hc1, if_false, hc2]
          have hau : a ≠ uid := by
            intro hEq
            rw [hEq, h] at ha
            cases ha
            exact hc1 (Or.inl hd)
          exact lookupUnit_setUnit_other h a _ (fun v => rfl) hau

theorem checkForAutoTarget_dead_frame (sq : ℚ → ℚ) {e : Engine} {uid : ℕ} {u : GUnit}
    (h : lookupUnit e.units uid = some u) (hd : u.isDead = true) (w : ℕ) :
    lookupUnit ((checkForAutoTarget sq e w).units) uid = some u := by
  unfold checkForAutoTarget
  cases hw : lookupUnit e.units w with
  | none => exact h
  | some v =>
    by_cases hb : v.isAttacking = true ∨ v.isMoving = true
    · simp only [hb, if_true]
      exact h
    · simp only [hb, if_false]
      cases autoTargetScan sq v e.units none with
      | none => exact h
      | some pr => exact attackUnit_dead_frame h hd w pr.1.id

theorem movementPhase_other_frame (sq : ℚ → ℚ) (δ : ℚ) {e : Engine} {uid : ℕ} {u : GUnit}
    (h : lookupUnit e.units uid = some u) (w : ℕ) (hne : w ≠ uid) :
    lookupUnit ((movementPhase sq δ e w).units) uid = some u := by
  unfold movementPhase
  cases hw : lookupUnit e.units w with
  | none => exact h
  | some v =>
    dsimp only
    cases v.path with
    | nil => exact h
    | cons tp rest =>
      by_cases hmv : v.isMoving = false
      · simp only [hmv, if_true]
        exact h
      · simp only [hmv, if_false]
        by_cases harr : sq ((tp.x - v.position.x) * (tp.x - v.position.x) +
            (tp.y - v.position.y) * (tp.y - v.position.y)) < 1
        · simp only [harr, if_true]
          exact lookupUnit_setUnit_other h w _ (fun x => rfl) hne
        · simp only [harr, if_false]
          exact lookupUnit_setUnit_other h w _ (fun x => rfl) hne

theorem combatPhase_dead_frame (sq : ℚ → ℚ) (δ : ℚ) {e : Engine} {uid : ℕ} {u : GUnit}
    (h : lookupUnit e.units uid = some u) (hd : u.isDead = true) (w : ℕ) (hne : w ≠ uid) :
    lookupUnit ((combatPhase sq δ e w).units) uid = some u := by
  unfold combatPhase
  cases hw : lookupUnit e.units w with
  | none => exact h
  | some v =>
    dsimp only
    by_cases hatk : v.isAttacking = false
    · simp only [hatk, if_true]
      exact h
    · simp only [hatk, if_false]
      cases v.targetId with
      | none => exact h
      | some tid =>
        dsimp only
        cases htid : lookupUnit e.units tid with
        | none => exact lookupUnit_setUnit_other h w _ (fun x => rfl) hne
        | some target =>
          by_cases htd : target.isDead = true
          · simp only [htd, if_true]
            exact lookupUnit_setUnit_other h w _ (fun x => rfl) hne
          · simp only [htd, if_false]
            have htu : tid ≠ uid := by
              intro hEq
              rw [hEq, h] at htid
              cases htid
              exact htd hd
            by_cases hcan : canUnitAttackTarget v target = false
            · simp only [hcan, if_true]
              exact lookupUnit_setUnit_other h w _ (fun x => rfl) hne
            · simp only [hcan, if_false]
              by_cases hr : sq ((target.position.x - v.position.x) *
                  (target.position.x - v.position.x) +
                  (target.position.y - v.position.y) *
                  (target.position.y - v.position.y)) ≤ v.range * 20
              · simp only [hr, if_true]
                by_cases hcross : ⌊e.gameTime⌋ > ⌊e.gameTime - δ⌋
                · simp only [hcross, if_true]
                  by_cases hkill : target.health - max 1 (v.attack - target.defense / 2) ≤ 0
                  · simp only [hkill, if_true]
                    exact lookupUnit_setUnit_other h tid _ (fun x => rfl) htu
                  · simp only [hkill, if_false]
                    exact lookupUnit_setUnit_other h tid _ (fun x => rfl) htu
                · simp only [hcross, if_false]
                  exact h
              · simp only [hr, if_false]
                exact lookupUnit_setUnit_other h w _ (fun x => rfl) hne

theorem updateOneUnit_dead_frame (sq : ℚ → ℚ) (δ : ℚ) {e : Engine} {uid : ℕ} {u : GUnit}
    (h : lookupUnit e.units uid = some u) (hd : u.isDead = true) (w : ℕ) :
    lookupUnit ((updateOneUnit sq δ e w).units) uid = some u := by
  unfold updateOneUnit
  cases hw : lookupUnit e.units w with
  | none => exact h
  | some v =>
    dsimp only
    by_cases hvd : v.isDead = true
    · simp only [hvd, if_true]
      exact h
    · simp only [hvd, if_false]
      have hne : w ≠ uid := by
        intro hEq
        rw [hEq, h] at hw
        cases hw
        exact hvd hd
      exact combatPhase_dead_frame sq δ
        (movementPhase_other_frame sq δ
          (checkForAutoTarget_dead_frame sq h hd w) w hne) hd w hne

theorem updateUnits_fold_dead_frame (sq : ℚ → ℚ) (δ : ℚ) (ids : List ℕ) :
    ∀ {e : Engine} {uid : ℕ} {u : GUnit},
    lookupUnit e.units uid = some u → u.isDead = true →
    lookupUnit ((ids.foldl (updateOneUnit sq δ) e).units) uid = some u := by
  induction ids with
  | nil => intro e uid u h _; exact h
  | cons w ids ih =>
    intro e uid u h hd
    exact ih (updateOneUnit_dead_frame sq δ h hd w) hd

theorem collectPlayerStep_units (sq : ℚ → ℚ) (r : Resource) (rid : ℕ) (st : Engine)
    (pid : ℕ) : (collectPlayerStep sq r rid st pid).units = st.units := by
  unfold collectPlayerStep
  cases lookupPlayer st.players pid with
  | none => rfl
  | some p =>
    by_cases hnear : soldierNear sq st.units p.unitIds r = true
    · simp [hnear]
    · simp [hnear]

theorem foldl_units_congr {f : Engine → ℕ → Engine}
    (hf : ∀ st x, (f st x).units = st.units) :
    ∀ (xs : List ℕ) (st : Engine), (xs.foldl f st).units = st.units := by
  intro xs
  induction xs with
  | nil => intro st; rfl
  | cons x xs ih => intro st; rw [List.foldl_cons, ih, hf]

theorem collectForResource_units (sq : ℚ → ℚ) (rid : ℕ) (e : Engine) :
    (collectForResource sq rid e).units = e.units := by
  unfold collectForResource
  cases lookupResource e.resources rid with
  | none => rfl
  | some r =>
    by_cases hc : r.isCollected = true
    · simp [hc]
    · simp only [hc, if_false]
      exact foldl_units_congr (collectPlayerStep_units sq r rid) _ e

theorem collectResources_units (sq : ℚ → ℚ) (e : Engine) :
    (collectResources sq e).units = e.units := by
  unfold collectResources
  exact foldl_units_congr (fun st rid => collectForResource_units sq rid st) _ e

theorem updateResources_units (δ : ℚ) (e : Engine) :
    (updateResources δ e).units = e.units := rfl

/-- C9: once a unit is dead its record is completely frozen: any later
move command, attack command (with any subject and object ids) or update
call leaves the exact same record resolvable under its id — dead units
are skipped by the per-tick pass, rejected as command subjects and never
damaged as targets. -/
theorem C9_dead_unit_frozen (e : Engine) (uid : ℕ) (u : GUnit)
    (h : lookupUnit e.units uid = some u) (hd : u.isDead = true) :
    (∀ (v : ℕ) (pos : Position),
        lookupUnit ((moveUnit e v pos).2).units uid = some u) ∧
    (∀ (a t : ℕ), lookupUnit ((attackUnit e a t).2).units uid = some u) ∧
    (∀ (sq : ℚ → ℚ) (δ : ℚ), lookupUnit ((update sq e δ).units) uid = some u) := by
  refine ⟨?_, ?_, ?_⟩
  · intro w pos
    unfold moveUnit
    cases hw : lookupUnit e.units w with
    | none => exact h
    | some v =>
      dsimp only
      by_cases hvd : v.isDead = true
      · simp only [hvd, if_true]
        exact h
      · simp only [hvd, if_false]
        have hne : w ≠ uid := by
          intro hEq
          rw [hEq, h] at hw
          cases hw
          exact hvd hd
        exact lookupUnit_setUnit_other h w _ (fun x => rfl) hne
  · intro a t
    exact attackUnit_dead_frame h hd a t
  · intro sq δ
    unfold update
    rw [collectResources_units, updateResources_units]
    exact updateUnits_fold_dead_frame sq δ _ h hd

/-- Witness for C9 at a concrete input: the dead soldier of deadState
survives a move command, an attack command and an update tick
unchanged. -/
theorem C9_dead_unit_frozen_witness :
    lookupUnit ((moveUnit deadState 7 ⟨5, 5⟩).2).units 7 = some deadSoldier ∧
    lookupUnit ((attackUnit deadState 7 7).2).units 7 = some deadSoldier ∧
    lookupUnit ((update zeroSqrt deadState 1).units) 7 = some deadSoldier :=
  ⟨(C9_dead_unit_frozen deadState 7 deadSoldier rfl rfl).1 7 ⟨5, 5⟩,
   (C9_dead_unit_frozen deadState 7 deadSoldier rfl rfl).2.1 7 7,
   (C9_dead_unit_frozen deadState 7 deadSoldier rfl rfl).2.2 zeroSqrt 1⟩

/-! ### Structural lemmas for the invariant proof -/

theorem mem_setUnit {us : List GUnit} {tid : ℕ} {f : GUnit → GUnit} {u' : GUnit}
    (h : u' ∈ setUnit us tid f) : ∃ u, u ∈ us ∧ u' = if u.id = tid then f u else u := by
  rcases List.mem_map.mp h with ⟨u, hu, he⟩
  exact ⟨u, hu, he.symm⟩

theorem mem_setPlayer {ps : List Player} {tid : ℕ} {f : Player → Player} {p' : Player}
    (h : p' ∈ setPlayer ps tid f) : ∃ p, p ∈ ps ∧ p' = if p.id = tid then f p else p := by
  rcases List.mem_map.mp h with ⟨p, hp, he⟩
  exact ⟨p, hp, he.symm⟩

theorem setUnit_map_id (us : List GUnit) (tid : ℕ) (f : GUnit → GUnit)
    (hf : ∀ v, (f v).id = v.id) :
    (setUnit us tid f).map (fun u => u.id) = us.map (fun u => u.id) := by
  unfold setUnit
  rw [List.map_map]
  apply List.map_congr_left
  intro a _
  by_cases h : a.id = tid <;> simp [h, hf]

theorem setPlayer_map_id (ps : List Player) (tid : ℕ) (f : Player → Player)
    (hf : ∀ p, (f p).id = p.id) :
    (setPlayer ps tid f).map (fun p => p.id) = ps.map (fun p => p.id) := by
  unfold setPlayer
  rw [List.map_map]
  apply List.map_congr_left
  intro a _
  by_cases h : a.id = tid <;> simp [h, hf]

theorem lookupUnit_eq_of_nodup {us : List GUnit} {uid : ℕ} {u : GUnit}
    (nd : (us.map (fun v => v.id)).Nodup) (hu : u ∈ us) (hid : u.id = uid) :
    lookupUnit us uid = some u := by
  induction us with
  | nil => cases hu
  | cons a us ih =>
    simp only [List.map_cons, List.nodup_cons] at nd
    rcases List.mem_cons.mp hu with rfl | hu'
    · unfold lookupUnit
      apply List.find?_cons_of_pos
      simp [hid]
    · have ha : ¬ (a.id == uid) = true := by
        simp only [beq_iff_eq]
        intro hEq
        apply nd.1
        rw [hEq, ← hid]
        exact List.mem_map.mpr ⟨u, hu', rfl⟩
      have haf : (a.id == uid) = false := by
        simpa using ha
      unfold lookupUnit at ih ⊢
      simp only [List.find?_cons, haf]
      exact ih nd.2 hu'

theorem lookupPlayer_eq_of_nodup {ps : List Player} {pid : ℕ} {p : Player}
    (nd : (ps.map (fun q => q.id)).Nodup) (hp : p ∈ ps) (hid : p.id = pid) :
    lookupPlayer ps pid = some p := by
  induction ps with
  | nil => cases hp
  | cons a ps ih =>
    simp only [List.map_cons, List.nodup_cons] at nd
    rcases List.mem_cons.mp hp with rfl | hp'
    · unfold lookupPlayer
      apply List.find?_cons_of_pos
      simp [hid]
    · have ha : ¬ (a.id == pid) = true := by
        simp only [beq_iff_eq]
        intro hEq
        apply nd.1
        rw [hEq, ← hid]
        exact List.mem_map.mpr ⟨p, hp', rfl⟩
      have haf : (a.id == pid) = false := by
        simpa using ha
      unfold lookupPlayer at ih ⊢
      simp only [List.find?_cons, haf]
      exact ih nd.2 hp'

theorem lookupUnit_isSome_iff (us : List GUnit) (uid : ℕ) :
    (lookupUnit us uid).isSome = true ↔ uid ∈ us.map (fun u => u.id) := by
  unfold lookupUnit
  rw [List.find?_isSome]
  simp [List.mem_map, beq_iff_eq]

theorem Inv_setUnit_safe {e : Engine} (hInv : Inv e) (tid : ℕ) (f : GUnit → GUnit)
    (hf : SafeUnitEdit f) : Inv { e with units := setUnit e.units tid f } := by
  refine ⟨hInv.moneyNonneg, hInv.amountNonneg, ?_, ?_, ?_, ?_, ?_,
    hInv.playerIdsNodup, hInv.playerIdsLt, hInv.rosterIdsLt⟩
  · intro u' hu'
    rcases mem_setUnit hu' with ⟨u, hu, rfl⟩
    by_cases h : u.id = tid
    · simpa [h, (hf u).2.2.2] using hInv.healthNonneg u hu
    · simpa [h] using hInv.healthNonneg u hu
  · intro u' hu'
    rcases mem_setUnit hu' with ⟨u, hu, rfl⟩
    by_cases h : u.id = tid
    · simpa [h, (hf u).2.1, (hf u).2.2.2] using hInv.deadZero u hu
    · simpa [h] using hInv.deadZero u hu
  · intro p hp uid huid u' hu' hid'
    rcases mem_setUnit hu' with ⟨u, hu, rfl⟩
    by_cases h : u.id = tid
    · have hid2 : u.id = uid := by
        rw [← hid']
        simp [h, (hf u).1]
      have hold := hInv.rosterLive p hp uid huid u hu hid2
      simpa [h, (hf u).2.1, (hf u).2.2.1] using hold
    · have hid2 : u.id = uid := by
        rw [← hid']
        simp [h]
      have hold := hInv.rosterLive p hp uid huid u hu hid2
      simpa [h] using hold
  · have := setUnit_map_id e.units tid f (fun v => (hf v).1)
    simpa [this] using hInv.unitIdsNodup
  · intro u' hu'
    rcases mem_setUnit hu' with ⟨u, hu, rfl⟩
    by_cases h : u.id = tid
    · simpa [h, (hf u).1] using hInv.unitIdsLt u hu
    · simpa [h] using hInv.unitIdsLt u hu

/-! ### Invariant preservation by the commands -/

theorem Inv_initEngine (w h : ℚ) (spots : List Position) : Inv (initEngine w h spots) := by
  refine ⟨?_, ?_, ?_, ?_, ?_, ?_, ?_, ?_, ?_, ?_⟩
  · intro p hp
    simp [initEngine] at hp
  · intro r hr
    simp only [initEngine, List.mem_map] at hr
    obtain ⟨i, _, rfl⟩ := hr
    norm_num [resourceAmount]
  · intro u hu
    simp [initEngine] at hu
  · intro u hu
    simp [initEngine] at hu
  · intro p hp
    simp [initEngine] at hp
  · simp [initEngine]
  · intro u hu
    simp [initEngine] at hu
  · simp [initEngine]
  · intro p hp
    simp [initEngine] at hp
  · intro p hp
    simp [initEngine] at hp

theorem mkUnit_health_nonneg (uid : ℕ) (t : UnitType) (pos : Position) (pid : ℕ) :
    0 ≤ (mkUnit uid t pos pid).health := by
  cases t <;> norm_num [mkUnit, unitStatsOf]

theorem mkUnit_id (uid : ℕ) (t : UnitType) (pos : Position) (pid : ℕ) :
    (mkUnit uid t pos pid).id = uid := rfl

theorem mkUnit_isDead (uid : ℕ) (t : UnitType) (pos : Position) (pid : ℕ) :
    (mkUnit uid t pos pid).isDead = false := rfl

theorem mkUnit_playerId (uid : ℕ) (t : UnitType) (pos : Position) (pid : ℕ) :
    (mkUnit uid t pos pid).playerId = pid := rfl

theorem Inv_createUnit {e : Engine} (hInv : Inv e) (pid : ℕ) (t : UnitType)
    (pos : Position) : Inv (createUnit e pid t pos).2 := by
  unfold createUnit
  cases hp : lookupPlayer e.players pid with
  | none => exact hInv
  | some p =>
    dsimp only
    by_cases hlt : p.money < scaledUnitCost t p.unitIds.length
    · simp only [hlt, if_true]
      exact hInv
    · simp only [hlt, if_false]
      have hfresh : e.nextId ∉ e.units.map (fun u => u.id) := by
        intro hmem
        rcases List.mem_map.mp hmem with ⟨u, hu, hid⟩
        exact absurd hid (Nat.ne_of_lt (hInv.unitIdsLt u hu))
      refine ⟨?_, hInv.amountNonneg, ?_, ?_, ?_, ?_, ?_, ?_, ?_, ?_⟩
      · intro p' hp'
        dsimp only at hp'
        rcases mem_setPlayer hp' with ⟨q, hq, rfl⟩
        by_cases hqid : q.id = pid
        · have hlq := lookupPlayer_eq_of_nodup hInv.playerIdsNodup hq hqid
          rw [hp] at hlq
          cases hlq
          simp only [hqid, if_true]
          linarith [not_lt.mp hlt]
        · simp only [hqid, if_false]
          exact hInv.moneyNonneg q hq
      · intro u' hu'
        dsimp only at hu'
        rcases List.mem_append.mp hu' with hu' | hu'
        · exact hInv.healthNonneg u' hu'
        · rw [List.mem_singleton.mp hu']
          exact mkUnit_health_nonneg _ _ _ _
      · intro u' hu' hd
        dsimp only at hu'
        rcases List.mem_append.mp hu' with hu' | hu'
        · exact hInv.deadZero u' hu' hd
        · rw [List.mem_singleton.mp hu'] at hd ⊢
          rw [mkUnit_isDead] at hd
          cases hd
      · intro p' hp' uid' huid' u' hu' hid'
        dsimp only at hp' hu'
        rcases mem_setPlayer hp' with ⟨q, hq, rfl⟩
        by_cases hqid : q.id = pid
        · simp only [hqid, if_true] at huid' ⊢
          rcases List.mem_append.mp huid' with huid' | huid'
          · rcases List.mem_append.mp hu' with hu' | hu'
            · have hold := hInv.rosterLive q hq uid' huid' u' hu' hid'
              exact ⟨hold.1, hqid ▸ hold.2⟩
            · rw [List.mem_singleton.mp hu'] at hid'
              rw [mkUnit_id] at hid'
              have := hInv.rosterIdsLt q hq uid' huid'
              omega
          · rw [List.mem_singleton.mp huid'] at hid'
            rcases List.mem_append.mp hu' with hu' | hu'
            · have := hInv.unitIdsLt u' hu'
              omega
            · rw [List.mem_singleton.mp hu']
              simp [mkUnit_isDead, mkUnit_playerId, hqid]
        · simp only [hqid, if_false] at huid' ⊢
          rcases List.mem_append.mp hu' with hu' | hu'
          · exact hInv.rosterLive q hq uid' huid' u' hu' hid'
          · rw [List.mem_singleton.mp hu'] at hid'
            rw [mkUnit_id] at hid'
            have := hInv.rosterIdsLt q hq uid' huid'
            omega
      · dsimp only
        simp only [List.map_append, List.map_cons, List.map_nil, mkUnit_id]
        rw [List.nodup_append]
        refine ⟨hInv.unitIdsNodup, List.nodup_singleton _, ?_⟩
        intro x hx hx'
        rw [List.mem_singleton.mp hx'] at hx
        exact hfresh hx
      · intro u' hu'
        dsimp only at hu' ⊢
        rcases List.mem_append.mp hu' with hu' | hu'
        · have := hInv.unitIdsLt u' hu'
          omega
        · rw [List.mem_singleton.mp hu', mkUnit_id]
          omega
      · dsimp only
        rw [setPlayer_map_id]
        · exact hInv.playerIdsNodup
        · intro q
          rfl
      · intro p' hp'
        dsimp only at hp' ⊢
        rcases mem_setPlayer hp' with ⟨q, hq, rfl⟩
        have := hInv.playerIdsLt q hq
        by_cases hqid : q.id = pid <;> simp only [hqid, if_true, if_false] <;> omega
      · intro p' hp' uid' huid'
        dsimp only at hp' huid' ⊢
        rcases mem_setPlayer hp' with ⟨q, hq, rfl⟩
        by_cases hqid : q.id = pid
        · simp only [hqid, if_true] at huid'
          rcases List.mem_append.mp huid' with huid' | huid'
          · have := hInv.rosterIdsLt q hq uid' huid'
            omega
          · rw [List.mem_singleton.mp huid']
            omega
        · simp only [hqid, if_false] at huid'
          have := hInv.rosterIdsLt q hq uid' huid'
          omega

theorem Inv_addPlayer {e : Engine} (hInv : Inv e) (nm : String) (fac : FactionType)
    (basePos : Position) : Inv (addPlayer e nm fac basePos).2 := by
  unfold addPlayer
  dsimp only
  apply Inv_createUnit
  apply Inv_createUnit
  apply Inv_createUnit
  have hfreshP : e.nextId ∉ e.players.map (fun p => p.id) := by
    intro hmem
    rcases List.mem_map.mp hmem with ⟨q, hq, hid⟩
    exact absurd hid (Nat.ne_of_lt (hInv.playerIdsLt q hq))
  refine ⟨?_, hInv.amountNonneg, hInv.healthNonneg, hInv.deadZero, ?_, hInv.unitIdsNodup,
    ?_, ?_, ?_, ?_⟩
  · intro p' hp'
    rcases List.mem_append.mp hp' with hp' | hp'
    · exact hInv.moneyNonneg p' hp'
    · rw [List.mem_singleton.mp hp']
      norm_num [startingMoney]
  · intro p' hp' uid' huid' u' hu' hid'
    rcases List.mem_append.mp hp' with hp' | hp'
    · exact hInv.rosterLive p' hp' uid' huid' u' hu' hid'
    · rw [List.mem_singleton.mp hp'] at huid'
      simp at huid'
  · intro u' hu'
    dsimp only at hu' ⊢
    have := hInv.unitIdsLt u' hu'
    omega
  · dsimp only
    simp only [List.map_append, List.map_cons, List.map_nil]
    rw [List.nodup_append]
    refine ⟨hInv.playerIdsNodup, List.nodup_singleton _, ?_⟩
    intro x hx hx'
    rw [List.mem_singleton.mp hx'] at hx
    exact hfreshP hx
  · intro p' hp'
    dsimp only at hp' ⊢
    rcases List.mem_append.mp hp' with hp' | hp'
    · have := hInv.playerIdsLt p' hp'
      omega
    · rw [List.mem_singleton.mp hp']
      dsimp only
      omega
  · intro p' hp' uid' huid'
    dsimp only at hp' huid' ⊢
    rcases List.mem_append.mp hp' with hp' | hp'
    · have := hInv.rosterIdsLt p' hp' uid' huid'
      omega
    · rw [List.mem_singleton.mp hp'] at huid'
      simp at huid'

theorem Inv_moveUnit {e : Engine} (hInv : Inv e) (uid : ℕ) (pos : Position) :
    Inv (moveUnit e uid pos).2 := by
  unfold moveUnit
  cases hm : lookupUnit e.units uid with
  | none => exact hInv
  | some u =>
    try dsimp only
    by_cases hd : u.isDead = true
    · simp only [hd, if_true]
      exact hInv
    · simp only [hd, if_false]
      exact Inv_setUnit_safe hInv uid _ (fun v => ⟨rfl, rfl, rfl, rfl⟩)

theorem Inv_attackUnit {e : Engine} (hInv : Inv e) (a t : ℕ) :
    Inv (attackUnit e a t).2 := by
  unfold attackUnit
  cases ha : lookupUnit e.units a with
  | none => exact hInv
  | some attacker =>
    cases ht : lookupUnit e.units t with
    | none => exact hInv
    | some target =>
      try dsimp only
      by_cases hc1 : attacker.isDead = true ∨ target.isDead = true ∨
          attacker.playerId = target.playerId
      · simp only [hc1, if_true]
        exact hInv
      · simp only [hc1, if_false]
        by_cases hc2 : canUnitAttackTarget attacker target = false
        · simp only [hc2, if_true]
          exact hInv
        · simp only [hc2, if_false]
          exact Inv_setUnit_safe hInv a _ (fun v => ⟨rfl, rfl, rfl, rfl⟩)

/-! ### Invariant preservation by the per-tick pass -/

theorem mem_setResource {rs : List Resource} {tid : ℕ} {f : Resource → Resource}
    {r' : Resource} (h : r' ∈ setResource rs tid f) :
    ∃ r, r ∈ rs ∧ r' = if r.id = tid then f r else r := by
  rcases List.mem_map.mp h with ⟨r, hr, he⟩
  exact ⟨r, hr, he.symm⟩

theorem Inv_setUnit_health {e : Engine} (hInv : Inv e) {tid : ℕ} {target : GUnit}
    (ht : lookupUnit e.units tid = some target) (hAlive : target.isDead = false)
    (h : ℚ) (hpos : 0 < h) :
    Inv { e with units := setUnit e.units tid (fun v => { v with health := h }) } := by
  refine ⟨hInv.moneyNonneg, hInv.amountNonneg, ?_, ?_, ?_, ?_, ?_,
    hInv.playerIdsNodup, hInv.playerIdsLt, hInv.rosterIdsLt⟩
  · intro u' hu'
    rcases mem_setUnit hu' with ⟨u, hu, rfl⟩
    by_cases hcase : u.id = tid
    · simp only [hcase, if_true]
      try dsimp only
      linarith
    · simpa [hcase] using hInv.healthNonneg u hu
  · intro u' hu' hd
    rcases mem_setUnit hu' with ⟨u, hu, rfl⟩
    by_cases hcase : u.id = tid
    · have hlu := lookupUnit_eq_of_nodup hInv.unitIdsNodup hu hcase
      rw [ht] at hlu
      cases hlu
      simp only [hcase, if_true] at hd
      try dsimp only at hd
      rw [hAlive] at hd
      cases hd
    · simp only [hcase, if_false] at hd ⊢
      exact hInv.deadZero u hu hd
  · intro p hp uid huid u' hu' hid'
    rcases mem_setUnit hu' with ⟨u, hu, rfl⟩
    by_cases hcase : u.id = tid
    · have hid2 : u.id = uid := by
        rw [← hid']
        simp [hcase]
      have hold := hInv.rosterLive p hp uid huid u hu hid2
      simpa [hcase] using hold
    · have hid2 : u.id = uid := by
        rw [← hid']
        simp [hcase]
      have hold := hInv.rosterLive p hp uid huid u hu hid2
      simpa [hcase] using hold
  · dsimp only
    rw [setUnit_map_id]
    · exact hInv.unitIdsNodup
    · intro v
      rfl
  · intro u' hu'
    rcases mem_setUnit hu' with ⟨u, hu, rfl⟩
    by_cases hcase : u.id = tid <;> simpa [hcase] using hInv.unitIdsLt u hu

theorem Inv_kill {e : Engine} (hInv : Inv e) {tid : ℕ} {target : GUnit}
    (ht : lookupUnit e.units tid = some target) :
    Inv { e with
      units := setUnit e.units tid (fun v => { v with health := 0, isDead := true })
      players := setPlayer e.players target.playerId (fun p =>
        { p with unitIds := p.unitIds.filter (fun i => i != tid) }) } := by
  refine ⟨?_, hInv.amountNonneg, ?_, ?_, ?_, ?_, ?_, ?_, ?_, ?_⟩
  · intro p' hp'
    try dsimp only at hp'
    rcases mem_setPlayer hp' with ⟨q, hq, rfl⟩
    by_cases hq1 : q.id = target.playerId <;>
      simpa [hq1] using hInv.moneyNonneg q hq
  · intro u' hu'
    try dsimp only at hu'
    rcases mem_setUnit hu' with ⟨u, hu, rfl⟩
    by_cases hcase : u.id = tid
    · simp [hcase]
    · simpa [hcase] using hInv.healthNonneg u hu
  · intro u' hu' hd
    try dsimp only at hu'
    rcases mem_setUnit hu' with ⟨u, hu, rfl⟩
    by_cases hcase : u.id = tid
    · simp [hcase]
    · simp only [hcase, if_false] at hd ⊢
      exact hInv.deadZero u hu hd
  · intro p' hp' uid' huid' u' hu' hid'
    try dsimp only at hp' hu'
    rcases mem_setPlayer hp' with ⟨q, hq, rfl⟩
    rcases mem_setUnit hu' with ⟨u, hu, rfl⟩
    by_cases hq1 : q.id = target.playerId
    · simp only [hq1, if_true] at huid' ⊢
      try dsimp only at huid'
      have hmem := List.mem_filter.mp huid'
      have hne : uid' ≠ tid := by simpa using hmem.2
      by_cases hcase : u.id = tid
      · exfalso
        apply hne
        rw [← hid']
        simp [hcase]
      · have hid2 : u.id = uid' := by
          rw [← hid']
          simp [hcase]
        have hold := hInv.rosterLive q hq uid' hmem.1 u hu hid2
        simpa [hcase, hq1] using hold
    · simp only [hq1, if_false] at huid' ⊢
      by_cases hcase : u.id = tid
      · exfalso
        have hid2 : uid' = tid := by
          rw [← hid']
          simp [hcase]
        have hold := hInv.rosterLive q hq uid' huid' target (lookupUnit_mem ht)
          (by rw [lookupUnit_id ht, hid2])
        exact hq1 hold.2.symm
      · have hid2 : u.id = uid' := by
          rw [← hid']
          simp [hcase]
        have hold := hInv.rosterLive q hq uid' huid' u hu hid2
        simpa [hcase] using hold
  · dsimp only
    rw [setUnit_map_id]
    · exact hInv.unitIdsNodup
    · intro v
      rfl
  · intro u' hu'
    try dsimp only at hu' ⊢
    rcases mem_setUnit hu' with ⟨u, hu, rfl⟩
    by_cases hcase : u.id = tid <;> simpa [hcase] using hInv.unitIdsLt u hu
  · dsimp only
    rw [setPlayer_map_id]
    · exact hInv.playerIdsNodup
    · intro q
      rfl
  · intro p' hp'
    try dsimp only at hp' ⊢
    rcases mem_setPlayer hp' with ⟨q, hq, rfl⟩
    by_cases hq1 : q.id = target.playerId <;>
      simpa [hq1] using hInv.playerIdsLt q hq
  · intro p' hp' uid' huid'
    try dsimp only at hp' huid' ⊢
    rcases mem_setPlayer hp' with ⟨q, hq, rfl⟩
    by_cases hq1 : q.id = target.playerId
    · simp only [hq1, if_true] at huid'
      try dsimp only at huid'
      have hmem := List.mem_filter.mp huid'
      exact hInv.rosterIdsLt q hq uid' hmem.1
    · simp only [hq1, if_false] at huid'
      exact hInv.rosterIdsLt q hq uid' huid'

theorem Inv_checkForAutoTarget (sq : ℚ → ℚ) {e : Engine} (hInv : Inv e) (w : ℕ) :
    Inv (checkForAutoTarget sq e w) := by
  unfold checkForAutoTarget
  cases lookupUnit e.units w with
  | none => exact hInv
  | some u =>
    try dsimp only
    by_cases hb : u.isAttacking = true ∨ u.isMoving = true
    · simp only [hb, if_true]
      exact hInv
    · simp only [hb, if_false]
      cases autoTargetScan sq u e.units none with
      | none => exact hInv
      | some pr =>
        obtain ⟨enemy, d⟩ := pr
        exact Inv_attackUnit hInv w enemy.id

theorem Inv_movementPhase (sq : ℚ → ℚ) (δ : ℚ) {e : Engine} (hInv : Inv e) (w : ℕ) :
    Inv (movementPhase sq δ e w) := by
  unfold movementPhase
  cases lookupUnit e.units w with
  | none => exact hInv
  | some u =>
    try dsimp only
    cases u.path with
    | nil => exact hInv
    | cons tp rest =>
      by_cases hmv : u.isMoving = false
      · simp only [hmv, if_true]
        exact hInv
      · simp only [hmv, if_false]
        by_cases harr : sq ((tp.x - u.position.x) * (tp.x - u.position.x) +
            (tp.y - u.position.y) * (tp.y - u.position.y)) < 1
        · simp only [harr, if_true]
          exact Inv_setUnit_safe hInv w _ (fun v => ⟨rfl, rfl, rfl, rfl⟩)
        · simp only [harr, if_false]
          exact Inv_setUnit_safe hInv w _ (fun v => ⟨rfl, rfl, rfl, rfl⟩)

theorem Inv_combatPhase (sq : ℚ → ℚ) (δ : ℚ) {e : Engine} (hInv : Inv e) (w : ℕ) :
    Inv (combatPhase sq δ e w) := by
  unfold combatPhase
  cases hw : lookupUnit e.units w with
  | none => exact hInv
  | some u =>
    try dsimp only
    by_cases hatk : u.isAttacking = false
    · simp only [hatk, if_true]
      exact hInv
    · simp only [hatk, if_false]
      cases u.targetId with
      | none => exact hInv
      | some tid =>
        try dsimp only
        cases ht : lookupUnit e.units tid with
        | none => exact Inv_setUnit_safe hInv w clearAttack (fun v => ⟨rfl, rfl, rfl, rfl⟩)
        | some target =>
          by_cases htd : target.isDead = true
          · simp only [htd, if_true]
            exact Inv_setUnit_safe hInv w clearAttack (fun v => ⟨rfl, rfl, rfl, rfl⟩)
          · simp only [htd, if_false]
            by_cases hcan : canUnitAttackTarget u target = false
            · simp only [hcan, if_true]
              exact Inv_setUnit_safe hInv w clearAttack (fun v => ⟨rfl, rfl, rfl, rfl⟩)
            · simp only [hcan, if_false]
              by_cases hr : sq ((target.position.x - u.position.x) *
                  (target.position.x - u.position.x) +
                  (target.position.y - u.position.y) *
                  (target.position.y - u.position.y)) ≤ u.range * 20
              · simp only [hr, if_true]
                by_cases hcross : ⌊e.gameTime⌋ > ⌊e.gameTime - δ⌋
                · simp only [hcross, if_true]
                  by_cases hkill : target.health - max 1 (u.attack - target.defense / 2) ≤ 0
                  · simp only [hkill, if_true]
                    exact Inv_kill hInv ht
                  · simp only [hkill, if_false]
                    have hAlive : target.isDead = false := by
                      cases hx : target.isDead
                      · rfl
                      · exact absurd hx htd
                    exact Inv_setUnit_health hInv ht hAlive _ (lt_of_not_le hkill)
                · simp only [hcross, if_false]
                  exact hInv
              · simp only [hr, if_false]
                exact Inv_setUnit_safe hInv w _ (fun v => ⟨rfl, rfl, rfl, rfl⟩)

theorem Inv_updateOneUnit (sq : ℚ → ℚ) (δ : ℚ) {e : Engine} (hInv : Inv e) (w : ℕ) :
    Inv (updateOneUnit sq δ e w) := by
  unfold updateOneUnit
  cases lookupUnit e.units w with
  | none => exact hInv
  | some u =>
    try dsimp only
    by_cases hd : u.isDead = true
    · simp only [hd, if_true]
      exact hInv
    · simp only [hd, if_false]
      exact Inv_combatPhase sq δ
        (Inv_movementPhase sq δ (Inv_checkForAutoTarget sq hInv w) w) w

theorem Inv_foldl {f : Engine → ℕ → Engine} (hf : ∀ st x, Inv st → Inv (f st x)) :
    ∀ (xs : List ℕ) (st : Engine), Inv st → Inv (xs.foldl f st) := by
  intro xs
  induction xs with
  | nil => intro st h; exact h
  | cons x xs ih =>
    intro st h
    rw [List.foldl_cons]
    exact ih _ (hf st x h)

theorem Inv_updateUnits (sq : ℚ → ℚ) (δ : ℚ) {e : Engine} (hInv : Inv e) :
    Inv (updateUnits sq δ e) :=
  Inv_foldl (fun st x h => Inv_updateOneUnit sq δ h x) _ e hInv

theorem Inv_updateResources (δ : ℚ) {e : Engine} (hInv : Inv e) :
    Inv (updateResources δ e) := by
  refine ⟨hInv.moneyNonneg, ?_, hInv.healthNonneg, hInv.deadZero, hInv.rosterLive,
    hInv.unitIdsNodup, hInv.unitIdsLt, hInv.playerIdsNodup, hInv.playerIdsLt,
    hInv.rosterIdsLt⟩
  intro r' hr'
  dsimp only [updateResources] at hr'
  rcases List.mem_map.mp hr' with ⟨r, hr, rfl⟩
  by_cases hc : r.isCollected = true
  · simp only [hc, if_true]
    try dsimp only
    by_cases hrt : r.respawnTime - δ ≤ 0
    · simp only [hrt, if_true]
      norm_num [resourceAmount]
    · simp only [hrt, if_false]
      exact hInv.amountNonneg r hr
  · simp only [hc, if_false]
    exact hInv.amountNonneg r hr

theorem Inv_collectPlayerStep (sq : ℚ → ℚ) (r : Resource) (rid : ℕ) {e : Engine}
    (hInv : Inv e) (pid : ℕ) (hr : 0 ≤ r.amount) :
    Inv (collectPlayerStep sq r rid e pid) := by
  unfold collectPlayerStep
  cases lookupPlayer e.players pid with
  | none => exact hInv
  | some p =>
    try dsimp only
    by_cases hnear : soldierNear sq e.units p.unitIds r = true
    · simp only [hnear, if_true]
      refine ⟨?_, ?_, hInv.healthNonneg, hInv.deadZero, ?_, hInv.unitIdsNodup,
        hInv.unitIdsLt, ?_, ?_, ?_⟩
      · intro p' hp'
        try dsimp only at hp'
        rcases mem_setPlayer hp' with ⟨q, hq, rfl⟩
        by_cases hq1 : q.id = pid
        · simp only [hq1, if_true]
          try dsimp only
          have := hInv.moneyNonneg q hq
          linarith
        · simp only [hq1, if_false]
          exact hInv.moneyNonneg q hq
      · intro r' hr'
        try dsimp only at hr'
        rcases mem_setResource hr' with ⟨s, hs, rfl⟩
        by_cases hs1 : s.id = rid <;> simpa [hs1] using hInv.amountNonneg s hs
      · intro p' hp' uid' huid' u' hu' hid'
        try dsimp only at hp' hu' huid'
        rcases mem_setPlayer hp' with ⟨q, hq, rfl⟩
        by_cases hq1 : q.id = pid
        · simp only [hq1, if_true] at huid' ⊢
          try dsimp only at huid'
          have hold := hInv.rosterLive q hq uid' huid' u' hu' hid'
          simpa [hq1] using hold
        · simp only [hq1, if_false] at huid' ⊢
          exact hInv.rosterLive q hq uid' huid' u' hu' hid'
      · dsimp only
        rw [setPlayer_map_id]
        · exact hInv.playerIdsNodup
        · intro q
          rfl
      · intro p' hp'
        try dsimp only at hp' ⊢
        rcases mem_setPlayer hp' with ⟨q, hq, rfl⟩
        by_cases hq1 : q.id = pid <;> simpa [hq1] using hInv.playerIdsLt q hq
      · intro p' hp' uid' huid'
        try dsimp only at hp' huid' ⊢
        rcases mem_setPlayer hp' with ⟨q, hq, rfl⟩
        by_cases hq1 : q.id = pid
        · simp only [hq1, if_true] at huid'
          try dsimp only at huid'
          exact hInv.rosterIdsLt q hq uid' huid'
        · simp only [hq1, if_false] at huid'
          exact hInv.rosterIdsLt q hq uid' huid'
    · simp only [hnear, if_false]
      exact hInv

theorem Inv_collectForResource (sq : ℚ → ℚ) (rid : ℕ) {e : Engine} (hInv : Inv e) :
    Inv (collectForResource sq rid e) := by
  unfold collectForResource
  cases hlr : lookupResource e.resources rid with
  | none => exact hInv
  | some r =>
    try dsimp only
    by_cases hc : r.isCollected = true
    · simp only [hc, if_true]
      exact hInv
    · simp only [hc, if_false]
      have hr : 0 ≤ r.amount := hInv.amountNonneg r (lookupResource_mem hlr)
      exact Inv_foldl (fun st x h => Inv_collectPlayerStep sq r rid h x hr) _ e hInv

theorem Inv_collectResources (sq : ℚ → ℚ) {e : Engine} (hInv : Inv e) :
    Inv (collectResources sq e) :=
  Inv_foldl (fun st x h => Inv_collectForResource sq x h) _ e hInv

theorem Inv_gameTime {e : Engine} (hInv : Inv e) (t : ℚ) :
    Inv { e with gameTime := t } :=
  ⟨hInv.moneyNonneg, hInv.amountNonneg, hInv.healthNonneg, hInv.deadZero,
   hInv.rosterLive, hInv.unitIdsNodup, hInv.unitIdsLt, hInv.playerIdsNodup,
   hInv.playerIdsLt, hInv.rosterIdsLt⟩

theorem Inv_update (sq : ℚ → ℚ) {e : Engine} (hInv : Inv e) (δ : ℚ) :
    Inv (update sq e δ) := by
  unfold update
  exact Inv_collectResources sq (Inv_updateResources δ (Inv_updateUnits sq δ
    (Inv_gameTime hInv _)))

theorem Inv_step {e e' : Engine} (h : Step e e') (hInv : Inv e) : Inv e' := by
  cases h with
  | addPlayer nm fac pos => exact Inv_addPlayer hInv nm fac pos
  | createUnit pid t pos => exact Inv_createUnit hInv pid t pos
  | moveUnit uid pos => exact Inv_moveUnit hInv uid pos
  | attackUnit a t => exact Inv_attackUnit hInv a t
  | update sq δ => exact Inv_update sq hInv δ

theorem Inv_reachable {e : Engine} (h : Reachable e) : Inv e := by
  induction h with
  | init w hh spots => exact Inv_initEngine w hh spots
  | step _ hstep ih => exact Inv_step hstep ih

/-! ### Unit ids survive every transition -/

theorem attackUnit_units_map_id (e : Engine) (a t : ℕ) :
    (((attackUnit e a t).2).units).map (fun u => u.id)
      = e.units.map (fun u => u.id) := by
  unfold attackUnit
  cases lookupUnit e.units a with
  | none => rfl
  | some attacker =>
    cases lookupUnit e.units t with
    | none => rfl
    | some target =>
      dsimp only
      by_cases hc1 : attacker.isDead = true ∨ target.isDead = true ∨
          attacker.playerId = target.playerId
      · simp only [hc1, if_true]
      · simp only [hc1, if_false]
        by_cases hc2 : canUnitAttackTarget attacker target = false
        · simp only [hc2, if_true]
        · simp only [hc2, if_false]
          exact setUnit_map_id _ _ _ (fun v => rfl)

theorem checkForAutoTarget_units_map_id (sq : ℚ → ℚ) (e : Engine) (w : ℕ) :
    ((checkForAutoTarget sq e w).units).map (fun u => u.id)
      = e.units.map (fun u => u.id) := by
  unfold checkForAutoTarget
  cases lookupUnit e.units w with
  | none => rfl
  | some u =>
    dsimp only
    by_cases hb : u.isAttacking = true ∨ u.isMoving = true
    · simp only [hb, if_true]
    · simp only [hb, if_false]
      cases autoTargetScan sq u e.units none with
      | none => rfl
      | some pr =>
        obtain ⟨enemy, d⟩ := pr
        exact attackUnit_units_map_id e w enemy.id

theorem movementPhase_units_map_id (sq : ℚ → ℚ) (δ : ℚ) (e : Engine) (w : ℕ) :
    ((movementPhase sq δ e w).units).map (fun u => u.id)
      = e.units.map (fun u => u.id) := by
  unfold movementPhase
  cases lookupUnit e.units w with
  | none => rfl
  | some u =>
    dsimp only
    cases u.path with
    | nil => rfl
    | cons tp rest =>
      by_cases hmv : u.isMoving = false
      · simp only [hmv, if_true]
      · simp only [hmv, if_false]
        by_cases harr : sq ((tp.x - u.position.x) * (tp.x - u.position.x) +
            (tp.y - u.position.y) * (tp.y - u.position.y)) < 1
        · simp only [harr, if_true]
          exact setUnit_map_id _ _ _ (fun v => rfl)
        · simp only [harr, if_false]
          exact setUnit_map_id _ _ _ (fun v => rfl)

theorem combatPhase_units_map_id (sq : ℚ → ℚ) (δ : ℚ) (e : Engine) (w : ℕ) :
    ((combatPhase sq δ e w).units).map (fun u => u.id)
      = e.units.map (fun u => u.id) := by
  unfold combatPhase
  cases lookupUnit e.units w with
  | none => rfl
  | some u =>
    dsimp only
    by_cases hatk : u.isAttacking = false
    · simp only [hatk, if_true]
    · simp only [hatk, if_false]
      cases u.targetId with
      | none => rfl
      | some tid =>
        dsimp only
        cases lookupUnit e.units tid with
        | none => exact setUnit_map_id _ _ _ (fun v => rfl)
        | some target =>
          dsimp only
          by_cases htd : target.isDead = true
          · simp only [htd, if_true]
            exact setUnit_map_id _ _ _ (fun v => rfl)
          · simp only [htd, if_false]
            by_cases hcan : canUnitAttackTarget u target = false
            · simp only [hcan, if_true]
              exact setUnit_map_id _ _ _ (fun v => rfl)
            · simp only [hcan, if_false]
              by_cases hr : sq ((target.position.x - u.position.x) *
                  (target.position.x - u.position.x) +
                  (target.position.y - u.position.y) *
                  (target.position.y - u.position.y)) ≤ u.range * 20
              · simp only [hr, if_true]
                by_cases hcross : ⌊e.gameTime⌋ > ⌊e.gameTime - δ⌋
                · simp only [hcross, if_true]
                  by_cases hkill : target.health -
                      max 1 (u.attack - target.defense / 2) ≤ 0
                  · simp only [hkill, if_true]
                    exact setUnit_map_id _ _ _ (fun v => rfl)
                  · simp only [hkill, if_false]
                    exact setUnit_map_id _ _ _ (fun v => rfl)
                · simp only [hcross, if_false]
                  rfl
              · simp only [hr, if_false]
                exact setUnit_map_id _ _ _ (fun v => rfl)

theorem updateOneUnit_units_map_id (sq : ℚ → ℚ) (δ : ℚ) (e : Engine) (w : ℕ) :
    ((updateOneUnit sq δ e w).units).map (fun u => u.id)
      = e.units.map (fun u => u.id) := by
  unfold updateOneUnit
  cases lookupUnit e.units w with
  | none => rfl
  | some u =>
    dsimp only
    by_cases hd : u.isDead = true
    · simp only [hd, if_true]
    · simp only [hd, Bool.false_eq_true, if_false]
      rw [combatPhase_units_map_id, movementPhase_units_map_id,
        checkForAutoTarget_units_map_id]

theorem foldl_units_map_id {f : Engine → ℕ → Engine}
    (hf : ∀ st x, ((f st x).units).map (fun u => u.id) = (st.units).map (fun u => u.id)) :
    ∀ (xs : List ℕ) (st : Engine),
    ((xs.foldl f st).units).map (fun u => u.id) = (st.units).map (fun u => u.id) := by
  intro xs
  induction xs with
  | nil => intro st; rfl
  | cons x xs ih =>
    intro st
    rw [List.foldl_cons, ih, hf]

theorem update_units_map_id (sq : ℚ → ℚ) (e : Engine) (δ : ℚ) :
    ((update sq e δ).units).map (fun u => u.id) = e.units.map (fun u => u.id) := by
  unfold update
  rw [collectResources_units, updateResources_units]
  exact foldl_units_map_id (updateOneUnit_units_map_id sq δ) _ _

theorem moveUnit_units_map_id (e : Engine) (uid : ℕ) (pos : Position) :
    (((moveUnit e uid pos).2).units).map (fun u => u.id)
      = e.units.map (fun u => u.id) := by
  unfold moveUnit
  cases lookupUnit e.units uid with
  | none => rfl
  | some u =>
    try dsimp only
    by_cases hd : u.isDead = true
    · simp only [hd, if_true]
    · simp only [hd, Bool.false_eq_true, if_false]
      exact setUnit_map_id _ _ _ (fun v => rfl)

theorem createUnit_units_id_mono (e : Engine) (pid : ℕ) (t : UnitType) (pos : Position)
    (uid : ℕ) (h : uid ∈ e.units.map (fun u => u.id)) :
    uid ∈ (((createUnit e pid t pos).2).units).map (fun u => u.id) := by
  unfold createUnit
  cases lookupPlayer e.players pid with
  | none => exact h
  | some p =>
    dsimp only
    by_cases hlt : p.money < scaledUnitCost t p.unitIds.length
    · simp only [hlt, if_true]
      exact h
    · simp only [hlt, if_false]
      try dsimp only
      rw [List.map_append]
      exact List.mem_append_left _ h

theorem addPlayer_units_id_mono (e : Engine) (nm : String) (fac : FactionType)
    (basePos : Position) (uid : ℕ) (h : uid ∈ e.units.map (fun u => u.id)) :
    uid ∈ (((addPlayer e nm fac basePos).2).units).map (fun u => u.id) := by
  unfold addPlayer
  dsimp only
  apply createUnit_units_id_mono
  apply createUnit_units_id_mono
  apply createUnit_units_id_mono
  exact h

theorem Step_lookup_persists {e e' : Engine} (h : Step e e') (uid : ℕ)
    (hs : (lookupUnit e.units uid).isSome = true) :
    (lookupUnit e'.units uid).isSome = true := by
  rw [lookupUnit_isSome_iff] at hs ⊢
  cases h with
  | addPlayer nm fac pos => exact addPlayer_units_id_mono e nm fac pos uid hs
  | createUnit pid t pos => exact createUnit_units_id_mono e pid t pos uid hs
  | moveUnit w pos => rw [moveUnit_units_map_id]; exact hs
  | attackUnit a t => rw [attackUnit_units_map_id]; exact hs
  | update sq δ => rw [update_units_map_id]; exact hs

/-! ### Claim C10: balances never go negative -/

/-- C10: in every reachable engine state every player balance is
non-negative: admission grants 800, creation deducts only after the
affordability guard, and collection only adds non-negative amounts. -/
theorem C10_balances_nonneg (e : Engine) (h : Reachable e) :
    ∀ p ∈ e.players, 0 ≤ p.money :=
  (Inv_reachable h).moneyNonneg

/-- Witness for C10 at a concrete reachable state: the state after one
player admission. -/
theorem C10_balances_nonneg_witness :
    (((addPlayer (initEngine 900 600 []) "A" .USA ⟨100, 100⟩).2).players.all
      (fun p => decide (0 ≤ p.money))) = true := by
  have h := C10_balances_nonneg _
    (Reachable.step (Reachable.init 900 600 [])
      (Step.addPlayer _ "A" .USA ⟨100, 100⟩))
  rw [List.all_eq_true]
  intro p hp
  exact decide_eq_true (h p hp)

/-! ### Claim C7: health clamping, death discipline, persistence -/

/-- C7: in every reachable state every unit has non-negative health; a
dead unit has health exactly zero and its id is absent from every player
roster; and every engine transition keeps every existing unit id
resolvable in the global unit map (records are never deleted). -/
theorem C7_health_death_discipline (e : Engine) (h : Reachable e) :
    (∀ u ∈ e.units, 0 ≤ u.health ∧ (u.isDead = true → u.health = 0 ∧
        ∀ p ∈ e.players, u.id ∉ p.unitIds)) ∧
    (∀ e', Step e e' → ∀ uid, (lookupUnit e.units uid).isSome = true →
        (lookupUnit e'.units uid).isSome = true) := by
  have hInv := Inv_reachable h
  constructor
  · intro u hu
    refine ⟨hInv.healthNonneg u hu, fun hd => ⟨hInv.deadZero u hu hd, ?_⟩⟩
    intro p hp hmem
    have hlive := (hInv.rosterLive p hp u.id hmem u hu rfl).1
    rw [hd] at hlive
    cases hlive
  · intro e' hstep uid
    exact Step_lookup_persists hstep uid

/-- Witness for C7 at a concrete reachable state: the state after one
player admission. -/
theorem C7_health_death_discipline_witness :
    (∀ u ∈ ((addPlayer (initEngine 900 600 []) "A" .USA ⟨100, 100⟩).2).units,
        0 ≤ u.health ∧ (u.isDead = true → u.health = 0 ∧
          ∀ p ∈ ((addPlayer (initEngine 900 600 []) "A" .USA ⟨100, 100⟩).2).players,
            u.id ∉ p.unitIds)) ∧
    (∀ e', Step (addPlayer (initEngine 900 600 []) "A" .USA ⟨100, 100⟩).2 e' →
        ∀ uid, (lookupUnit ((addPlayer (initEngine 900 600 [])
            "A" .USA ⟨100, 100⟩).2).units uid).isSome = true →
          (lookupUnit e'.units uid).isSome = true) :=
  C7_health_death_discipline _
    (Reachable.step (Reachable.init 900 600 [])
      (Step.addPlayer _ "A" .USA ⟨100, 100⟩))

/-! ### Claim C1: multiple players can collect one resource in one tick -/

theorem damage_soldier_soldier : max (1 : ℚ) (10 - 5 / 2) = 15 / 2 := by
  have h : (10 : ℚ) - 5 / 2 = 15 / 2 := by norm_num
  rw [h, max_eq_right]
  norm_num

/-- C1 (counterexample): one update tick on collideState credits the
single uncollected resource (amount 150) to both players — each balance
goes from 0 to 150 in the same tick — because the inner player loop of
collectResources never re-tests the collected flag it sets. -/
theorem C1_single_credit_counterexample :
    (lookupPlayer ((update zeroSqrt collideState 1).players) 0).map Player.money
        = some 150 ∧
      (lookupPlayer ((update zeroSqrt collideState 1).players) 1).map Player.money
        = some 150 ∧
      (lookupResource ((update zeroSqrt collideState 1).resources) 4).map
          Resource.isCollected = some true := by
  have h1 : updateOneUnit zeroSqrt 1 collideTick 2 = collideAfter2 := by
    norm_num +decide [updateOneUnit, checkForAutoTarget, autoTargetScan, movementPhase,
      combatPhase, attackUnit, canUnitAttackTarget, dist, zeroSqrt, lookupUnit, setUnit,
      clearAttack, mkUnit, unitStatsOf, damage_soldier_soldier, collideTick, collideAfter2]
  have h2 : updateOneUnit zeroSqrt 1 collideAfter2 3 = collideAfter3 := by
    norm_num +decide [updateOneUnit, checkForAutoTarget, autoTargetScan, movementPhase,
      combatPhase, attackUnit, canUnitAttackTarget, dist, zeroSqrt, lookupUnit, setUnit,
      clearAttack, damage_soldier_soldier, collideAfter2, collideAfter3]
  have h3 : updateResources 1 collideAfter3 = collideAfter3 := by
    norm_num [updateResources, collideAfter3]
  have h4 : collectResources zeroSqrt collideAfter3 = collideFinal := by
    norm_num +decide [collectResources, collectForResource, collectPlayerStep,
      soldierNear, lookupPlayer, lookupUnit, lookupResource, setPlayer, setResource,
      dist, zeroSqrt, collectionRange, collideAfter3, collideFinal]
  have hu : update zeroSqrt collideState 1 = collideFinal := by
    unfold update
    have he1 : ({ collideState with gameTime := collideState.gameTime + 1 } : Engine)
        = collideTick := by
      norm_num [collideState, collideTick]
    have hids : collideTick.units.map (fun u => u.id) = [2, 3] := by
      norm_num [collideTick, mkUnit_id]
    dsimp only
    rw [he1]
    unfold updateUnits
    rw [hids]
    simp only [List.foldl_cons, List.foldl_nil]
    rw [h1, h2, h3, h4]
  rw [hu]
  refine ⟨?_, ?_, ?_⟩ <;> rfl

/-! ### Characterization of the collection pass (amended C1) -/

theorem any_congr {l : List ℕ} {p q : ℕ → Bool} (h : ∀ a, p a = q a) :
    l.any p = l.any q := by
  induction l with
  | nil => rfl
  | cons a l ih => simp [List.any_cons, h a, ih]

theorem setResource_flag_idem (rs : List Resource) (rid : ℕ) :
    setResource (setResource rs rid (fun s => { s with isCollected := true })) rid
      (fun s => { s with isCollected := true })
    = setResource rs rid (fun s => { s with isCollected := true }) := by
  unfold setResource
  rw [List.map_map]
  apply List.map_congr_left
  intro a _
  by_cases h : a.id = rid <;> simp [h]

theorem lookupPlayer_setPlayer_other (ps : List Player) (tid : ℕ) (f : Player → Player)
    (hf : ∀ p, (f p).id = p.id) (pid : ℕ) (hne : pid ≠ tid) :
    lookupPlayer (setPlayer ps tid f) pid = lookupPlayer ps pid := by
  rw [lookupPlayer_setPlayer ps tid f hf pid]
  cases h : lookupPlayer ps pid with
  | none => rfl
  | some p =>
    have hid := lookupPlayer_id h
    simp [hid, hne]

theorem lookupResource_setResource_other (rs : List Resource) (tid : ℕ)
    (f : Resource → Resource) (hf : ∀ r, (f r).id = r.id) (rid : ℕ) (hne : rid ≠ tid) :
    lookupResource (setResource rs tid f) rid = lookupResource rs rid := by
  rw [lookupResource_setResource rs tid f hf rid]
  cases h : lookupResource rs rid with
  | none => rfl
  | some r =>
    have hid := lookupResource_id h
    simp [hid, hne]

theorem collectPlayerStep_players_map_id (sq : ℚ → ℚ) (r : Resource) (rid : ℕ)
    (st : Engine) (pid : ℕ) :
    ((collectPlayerStep sq r rid st pid).players).map (fun p => p.id)
      = st.players.map (fun p => p.id) := by
  unfold collectPlayerStep
  cases lookupPlayer st.players pid with
  | none => rfl
  | some p =>
    dsimp only
    by_cases hnear : soldierNear sq st.units p.unitIds r = true
    · simp only [hnear, if_true]
      exact setPlayer_map_id _ _ _ (fun q => rfl)
    · simp only [hnear, Bool.false_eq_true, if_false]

theorem foldl_players_map_id {f : Engine → ℕ → Engine}
    (hf : ∀ st x, ((f st x).players).map (fun p => p.id) = (st.players).map (fun p => p.id)) :
    ∀ (xs : List ℕ) (st : Engine),
    (((xs.foldl f st).players).map (fun p => p.id)) = (st.players).map (fun p => p.id) := by
  intro xs
  induction xs with
  | nil => intro st; rfl
  | cons x xs ih =>
    intro st
    rw [List.foldl_cons, ih, hf]

theorem collectForResource_players_map_id (sq : ℚ → ℚ) (rid : ℕ) (st : Engine) :
    ((collectForResource sq rid st).players).map (fun p => p.id)
      = st.players.map (fun p => p.id) := by
  unfold collectForResource
  cases lookupResource st.resources rid with
  | none => rfl
  | some r =>
    dsimp only
    by_cases hc : r.isCollected = true
    · simp only [hc, if_true]
    · simp only [hc, if_false]
      exact foldl_players_map_id (collectPlayerStep_players_map_id sq r rid) _ st

theorem collect_inner_fold (sq : ℚ → ℚ) (r : Resource) (rid : ℕ) :
    ∀ (pids : List ℕ) (st : Engine), pids.Nodup →
    ((pids.foldl (collectPlayerStep sq r rid) st).units = st.units) ∧
    (∀ pid : ℕ, lookupPlayer ((pids.foldl (collectPlayerStep sq r rid) st).players) pid
      = (lookupPlayer st.players pid).map (fun p =>
          if pid ∈ pids ∧ soldierNear sq st.units p.unitIds r = true then
            { p with money := p.money + r.amount } else p)) ∧
    ((pids.foldl (collectPlayerStep sq r rid) st).resources
      = if anyQualifies sq r st pids = true then
          setResource st.resources rid (fun s => { s with isCollected := true })
        else st.resources) := by
  intro pids
  induction pids with
  | nil =>
    intro st _
    refine ⟨rfl, ?_, ?_⟩
    · intro pid
      cases h : lookupPlayer st.players pid <;> simp [h]
    · simp [anyQualifies]
  | cons pid0 rest ih =>
    intro st hnd
    rw [List.nodup_cons] at hnd
    obtain ⟨hpid0, hndr⟩ := hnd
    rw [List.foldl_cons]
    cases hp0 : lookupPlayer st.players pid0 with
    | none =>
      have hstep : collectPlayerStep sq r rid st pid0 = st := by
        unfold collectPlayerStep
        rw [hp0]
      rw [hstep]
      obtain ⟨ihu, ihp, ihr⟩ := ih st hndr
      refine ⟨ihu, ?_, ?_⟩
      · intro pid
        rw [ihp pid]
        by_cases hpp : pid = pid0
        · subst hpp
          rw [hp0]
          rfl
        · cases hq : lookupPlayer st.players pid with
          | none => rfl
          | some q => simp [List.mem_cons, hpp]
      · rw [ihr]
        have hcond : anyQualifies sq r st (pid0 :: rest) = anyQualifies sq r st rest := by
          simp [anyQualifies, List.any_cons, hp0]
        rw [hcond]
    | some p0 =>
      by_cases hnear : soldierNear sq st.units p0.unitIds r = true
      · have hstep : collectPlayerStep sq r rid st pid0
            = { st with
                players := setPlayer st.players pid0 (fun q =>
                  { q with money := q.money + r.amount })
                resources := setResource st.resources rid (fun s =>
                  { s with isCollected := true }) } := by
          unfold collectPlayerStep
          rw [hp0]
          simp [hnear]
        rw [hstep]
        obtain ⟨ihu, ihp, ihr⟩ := ih
          { st with
            players := setPlayer st.players pid0 (fun q =>
              { q with money := q.money + r.amount })
            resources := setResource st.resources rid (fun s =>
              { s with isCollected := true }) } hndr
        have hlook : ∀ pid, lookupPlayer (setPlayer st.players pid0 (fun q =>
            { q with money := q.money + r.amount })) pid
            = (lookupPlayer st.players pid).map (fun q =>
                if q.id = pid0 then { q with money := q.money + r.amount } else q) :=
          fun pid => lookupPlayer_setPlayer st.players pid0
            (fun q => { q with money := q.money + r.amount }) (fun q => rfl) pid
        refine ⟨ihu, ?_, ?_⟩
        · intro pid
          rw [ihp pid]
          dsimp only
          rw [hlook pid]
          cases hq : lookupPlayer st.players pid with
          | none => rfl
          | some q =>
            have hqid := lookupPlayer_id hq
            simp only [Option.map_some']
            by_cases hpp : pid = pid0
            · subst hpp
              rw [hp0] at hq
              cases hq
              simp [hqid, hnear, hpid0]
            · have hqne : q.id ≠ pid0 := by
                rw [hqid]
                exact hpp
              simp only [hqne, if_false]
              simp [List.mem_cons, hpp]
        · rw [ihr]
          have hany : anyQualifies sq r
              { st with
                players := setPlayer st.players pid0 (fun q =>
                  { q with money := q.money + r.amount })
                resources := setResource st.resources rid (fun s =>
                  { s with isCollected := true }) } rest
              = anyQualifies sq r st rest := by
            unfold anyQualifies
            apply any_congr
            intro pid
            dsimp only
            rw [hlook pid]
            cases hq : lookupPlayer st.players pid with
            | none => rfl
            | some q =>
              by_cases hqne : q.id = pid0 <;> simp [hqne]
          rw [hany]
          have hconsq : anyQualifies sq r st (pid0 :: rest) = true := by
            simp [anyQualifies, List.any_cons, hp0, hnear]
          by_cases hrest : anyQualifies sq r st rest = true
          · simp only [hrest, if_true]
            try dsimp only
            rw [setResource_flag_idem, hconsq]
            simp
          · simp only [hrest, Bool.false_eq_true, if_false]
            try dsimp only
            rw [hconsq]
            simp
      · have hstep : collectPlayerStep sq r rid st pid0 = st := by
          unfold collectPlayerStep
          rw [hp0]
          simp [hnear]
        rw [hstep]
        obtain ⟨ihu, ihp, ihr⟩ := ih st hndr
        refine ⟨ihu, ?_, ?_⟩
        · intro pid
          rw [ihp pid]
          by_cases hpp : pid = pid0
          · subst hpp
            rw [hp0]
            simp only [Option.map_some']
            simp [hpid0, hnear]
          · cases hq : lookupPlayer st.players pid with
            | none => rfl
            | some q => simp [List.mem_cons, hpp]
        · rw [ihr]
          have hcond : anyQualifies sq r st (pid0 :: rest) = anyQualifies sq r st rest := by
            simp [anyQualifies, List.any_cons, hp0, hnear]
          rw [hcond]

theorem collectForResource_spec (sq : ℚ → ℚ) (rid : ℕ) (st : Engine)
    (hpnd : (st.players.map (fun p => p.id)).Nodup) :
    ((collectForResource sq rid st).units = st.units) ∧
    (∀ pid, lookupPlayer ((collectForResource sq rid st).players) pid
      = (lookupPlayer st.players pid).map (fun p =>
          { p with money := p.money + creditOf sq st p.unitIds rid })) ∧
    ((collectForResource sq rid st).resources
      = match lookupResource st.resources rid with
        | none => st.resources
        | some r =>
          if r.isCollected = false ∧
              anyQualifies sq r st (st.players.map (fun p => p.id)) = true then
            setResource st.resources rid (fun s => { s with isCollected := true })
          else st.resources) := by
  unfold collectForResource
  cases hlr : lookupResource st.resources rid with
  | none =>
    refine ⟨rfl, ?_, rfl⟩
    intro pid
    cases hq : lookupPlayer st.players pid with
    | none => rfl
    | some q => simp [creditOf, hlr]
  | some r =>
    dsimp only
    by_cases hc : r.isCollected = true
    · rw [if_pos hc]
      refine ⟨rfl, ?_, ?_⟩
      · intro pid
        cases hq : lookupPlayer st.players pid with
        | none => rfl
        | some q => simp [creditOf, hlr, hc]
      · simp [hc]
    · have hcf : r.isCollected = false := by
        cases hx : r.isCollected
        · rfl
        · exact absurd hx hc
      simp only [hc, Bool.false_eq_true, if_false]
      obtain ⟨hu, hp, hr⟩ :=
        collect_inner_fold sq r rid (st.players.map (fun p => p.id)) st hpnd
      refine ⟨hu, ?_, ?_⟩
      · intro pid
        rw [hp pid]
        cases hq : lookupPlayer st.players pid with
        | none => rfl
        | some q =>
          have hmem : pid ∈ st.players.map (fun p => p.id) :=
            List.mem_map.mpr ⟨q, lookupPlayer_mem hq, lookupPlayer_id hq⟩
          by_cases hnear : soldierNear sq st.units q.unitIds r = true
          · simp [hmem, hnear, creditOf, hlr, hcf]
          · simp [hmem, hnear, creditOf, hlr, hcf]
      · rw [hr]
        simp [hcf]

theorem collect_outer_fold (sq : ℚ → ℚ) :
    ∀ (rids : List ℕ) (st : Engine), rids.Nodup →
      (st.players.map (fun p => p.id)).Nodup →
    ((rids.foldl (fun s rid => collectForResource sq rid s) st).units = st.units) ∧
    (((rids.foldl (fun s rid => collectForResource sq rid s) st).players).map
        (fun p => p.id) = st.players.map (fun p => p.id)) ∧
    (∀ rid, rid ∉ rids →
        lookupResource ((rids.foldl (fun s rid =>
          collectForResource sq rid s) st).resources) rid
          = lookupResource st.resources rid) ∧
    (∀ pid, lookupPlayer ((rids.foldl (fun s rid =>
        collectForResource sq rid s) st).players) pid
      = (lookupPlayer st.players pid).map (fun p =>
          { p with money := p.money + ((rids.map (creditOf sq st p.unitIds)).sum) })) ∧
    (∀ rid r, rid ∈ rids → lookupResource st.resources rid = some r →
        r.isCollected = false →
        anyQualifies sq r st (st.players.map (fun p => p.id)) = true →
        (lookupResource ((rids.foldl (fun s rid =>
            collectForResource sq rid s) st).resources) rid).map
          Resource.isCollected = some true) := by
  intro rids
  induction rids with
  | nil =>
    intro st _ _
    refine ⟨rfl, rfl, fun rid _ => rfl, ?_, ?_⟩
    · intro pid
      cases hq : lookupPlayer st.players pid <;> simp [hq]
    · intro rid r hmem
      exact absurd hmem (List.not_mem_nil rid)
  | cons rid0 rest ih =>
    intro st hnd hpnd
    rw [List.nodup_cons] at hnd
    obtain ⟨hrid0, hndr⟩ := hnd
    rw [List.foldl_cons]
    obtain ⟨hu0, hp0, hr0⟩ := collectForResource_spec sq rid0 st hpnd
    have hpid1 : (collectForResource sq rid0 st).players.map (fun p => p.id)
        = st.players.map (fun p => p.id) :=
      collectForResource_players_map_id sq rid0 st
    have hpnd1 : ((collectForResource sq rid0 st).players.map (fun p => p.id)).Nodup := by
      rw [hpid1]
      exact hpnd
    obtain ⟨ihu, ihpid, ihother, ihp, ihflag⟩ :=
      ih (collectForResource sq rid0 st) hndr hpnd1
    have hres_other : ∀ rid, rid ≠ rid0 →
        lookupResource (collectForResource sq rid0 st).resources rid
          = lookupResource st.resources rid := by
      intro rid hne
      rw [hr0]
      cases hlr0 : lookupResource st.resources rid0 with
      | none => rfl
      | some r0 =>
        dsimp only
        by_cases hcond : r0.isCollected = false ∧
            anyQualifies sq r0 st (st.players.map (fun p => p.id)) = true
        · rw [if_pos hcond]
          rw [lookupResource_setResource_other]
          · intro s
            rfl
          · exact hne
        · rw [if_neg hcond]
    have hcredit : ∀ (roster : List ℕ) (rid : ℕ), rid ≠ rid0 →
        creditOf sq (collectForResource sq rid0 st) roster rid
          = creditOf sq st roster rid := by
      intro roster rid hne
      unfold creditOf
      rw [hres_other rid hne, hu0]
    have hany1 : ∀ r : Resource,
        anyQualifies sq r (collectForResource sq rid0 st)
            ((collectForResource sq rid0 st).players.map (fun p => p.id))
          = anyQualifies sq r st (st.players.map (fun p => p.id)) := by
      intro r
      rw [hpid1]
      unfold anyQualifies
      apply any_congr
      intro pid
      rw [hp0 pid]
      cases hq : lookupPlayer st.players pid with
      | none => rfl
      | some q =>
        simp only [Option.map_some', Option.getD_some]
        rw [hu0]
    refine ⟨?_, ?_, ?_, ?_, ?_⟩
    · rw [ihu, hu0]
    · rw [ihpid, hpid1]
    · intro rid hmem
      rw [List.mem_cons] at hmem
      push_neg at hmem
      rw [ihother rid hmem.2, hres_other rid hmem.1]
    · intro pid
      rw [ihp pid, hp0 pid]
      cases hq : lookupPlayer st.players pid with
      | none => rfl
      | some q =>
        simp only [Option.map_some']
        have hrw : ∀ rid' ∈ rest,
            creditOf sq (collectForResource sq rid0 st) q.unitIds rid'
              = creditOf sq st q.unitIds rid' := by
          intro rid' hm
          refine hcredit q.unitIds rid' ?_
          intro hEq
          exact hrid0 (hEq ▸ hm)
        rw [List.map_congr_left hrw]
        simp [List.map_cons, List.sum_cons, add_assoc]
    · intro rid r hmem hlr hcf hqual
      rw [List.mem_cons] at hmem
      rcases hmem with rfl | hmem
      · have hres1 : (collectForResource sq rid st).resources
            = setResource st.resources rid (fun s => { s with isCollected := true }) := by
          rw [hr0, hlr]
          simp [hcf, hqual]
        have h1 : lookupResource (collectForResource sq rid st).resources rid
            = some { r with isCollected := true } := by
          rw [hres1, lookupResource_setResource]
          · rw [hlr]
            simp [lookupResource_id hlr]
          · intro s
            rfl
        rw [ihother rid hrid0, h1]
        rfl
      · have hne : rid ≠ rid0 := by
          intro hEq
          exact hrid0 (hEq ▸ hmem)
        apply ihflag rid r hmem
        · rw [hres_other rid hne]
          exact hlr
        · exact hcf
        · rw [hany1 r]
          exact hqual

/-- C1 (amended): the collection pass credits EVERY player that has a
living soldier within collection range of an uncollected resource node
with that node's full amount (the per-player credit is `creditOf`,
summed over all resource ids), and every uncollected node with at least
one qualifying player has its collected flag set by the end of the
pass.  Collection is not exclusive: the inner player loop never
re-checks the isCollected flag it has just set, so two players standing
on the same node are BOTH credited the full 150 in the same tick. -/
theorem C1_amended_every_qualifying_player_credited
    (sq : ℚ → ℚ) (e : Engine)
    (hrnd : (e.resources.map (fun r => r.id)).Nodup)
    (hpnd : (e.players.map (fun p => p.id)).Nodup) :
    (∀ pid, lookupPlayer ((collectResources sq e).players) pid
      = (lookupPlayer e.players pid).map (fun p =>
          { p with money := p.money
              + ((e.resources.map (fun r => r.id)).map (creditOf sq e p.unitIds)).sum })) ∧
    (∀ rid r, lookupResource e.resources rid = some r →
        r.isCollected = false →
        anyQualifies sq r e (e.players.map (fun p => p.id)) = true →
        (lookupResource ((collectResources sq e).resources) rid).map
          Resource.isCollected = some true) := by
  obtain ⟨hu, hpid, hother, hp, hflag⟩ :=
    collect_outer_fold sq (e.resources.map (fun r => r.id)) e hrnd hpnd
  refine ⟨hp, ?_⟩
  intro rid r hlr hcf hqual
  exact hflag rid r
    (List.mem_map.mpr ⟨r, lookupResource_mem hlr, lookupResource_id hlr⟩)
    hlr hcf hqual

/-- Witness for the amended C1 at the two-players-on-one-node state. -/
theorem C1_amended_every_qualifying_player_credited_witness :
    (collideState.resources.map (fun r => r.id)).Nodup ∧
    (collideState.players.map (fun p => p.id)).Nodup ∧
    ((∀ pid, lookupPlayer ((collectResources zeroSqrt collideState).players) pid
      = (lookupPlayer collideState.players pid).map (fun p =>
          { p with money := p.money
              + ((collideState.resources.map (fun r => r.id)).map
                  (creditOf zeroSqrt collideState p.unitIds)).sum })) ∧
    (∀ rid r, lookupResource collideState.resources rid = some r →
        r.isCollected = false →
        anyQualifies zeroSqrt r collideState
            (collideState.players.map (fun p => p.id)) = true →
        (lookupResource ((collectResources zeroSqrt collideState).resources) rid).map
          Resource.isCollected = some true)) :=
  ⟨by decide, by decide,
    C1_amended_every_qualifying_player_credited zeroSqrt collideState
      (by decide) (by decide)⟩

/-! ### The damage throttle (C6) -/

theorem duel_step (sq : ℚ → ℚ) (hs : sq 0 = 0) (t d : ℚ)
    (ht : 0 ≤ t) (hd0 : 0 < d) (hd1 : d ≤ 1) (hsum : t + d ≤ 23 / 10) :
    update sq (duelState t) d = duelState (t + d) := by
  have hc : t + d - d = t := by ring
  have h23 : (⌊(23 : ℚ) / 10⌋ : ℤ) = 2 := by
    rw [Int.floor_eq_iff] <;> norm_num
  have hub : (⌊t + d⌋ : ℤ) ≤ 2 := by
    have hx := Int.floor_le_floor hsum
    omega
  have hlb : (0 : ℤ) ≤ ⌊t⌋ := Int.floor_nonneg.mpr ht
  have hmono : (⌊t⌋ : ℤ) ≤ ⌊t + d⌋ := Int.floor_le_floor (by linarith)
  have hup : (⌊t + d⌋ : ℤ) ≤ ⌊t⌋ + 1 := by
    have h1 : (⌊t + d⌋ : ℤ) ≤ ⌊t + 1⌋ := Int.floor_le_floor (by linarith)
    rw [Int.floor_add_one] at h1
    exact h1
  have hT : ∀ g h : ℚ, updateOneUnit sq d (duelMid g h) 3 = duelMid g h :=
    fun g h => rfl
  have h2start : ∀ h : ℚ, updateOneUnit sq d (duelMid (t + d) h) 2
      = combatPhase sq d (duelMid (t + d) h) 2 := fun h => rfl
  have hcomb : combatPhase sq d (duelMid (t + d) (300 - 15 * (⌊t⌋ : ℚ))) 2
      = duelMid (t + d) (300 - 15 * (⌊t + d⌋ : ℚ)) := by
    by_cases hcr : (⌊t + d⌋ : ℤ) > ⌊t + d - d⌋
    · rw [hc] at hcr
      have hfl : (⌊t + d⌋ : ℤ) = ⌊t⌋ + 1 := by omega
      have hle1 : (⌊t⌋ : ℤ) ≤ 1 := by omega
      have hq1 : ((⌊t⌋ : ℤ) : ℚ) ≤ 1 := by exact_mod_cast hle1
      unfold combatPhase
      norm_num +decide [lookupUnit, duelMid, canUnitAttackTarget, dist, hs, hc,
        setUnit, clearAttack]
      rw [if_pos hcr]
      rw [if_neg (by linarith : ¬ ((300 : ℚ) ≤ 15 + 15 * ((⌊t⌋ : ℤ) : ℚ)))]
      rw [hfl]
      push_cast
      norm_num [duelMid, setUnit, setPlayer]
      ring
    · rw [hc] at hcr
      have hfl0 : (⌊t + d⌋ : ℤ) = ⌊t⌋ := by omega
      unfold combatPhase
      norm_num +decide [lookupUnit, duelMid, canUnitAttackTarget, dist, hs, hc,
        setUnit, clearAttack]
      rw [if_neg (by omega : ¬ ((⌊t⌋ : ℤ) < ⌊t + d⌋))]
      rw [hfl0]
  have hu : update sq (duelState t) d = duelState (t + d) := by
    unfold update
    have he1 : ({ duelState t with gameTime := (duelState t).gameTime + d } : Engine)
        = duelMid (t + d) (300 - 15 * (⌊t⌋ : ℚ)) := rfl
    dsimp only
    rw [he1]
    unfold updateUnits
    have hids : ((duelMid (t + d) (300 - 15 * (⌊t⌋ : ℚ))).units.map (fun u => u.id))
        = [2, 3] := rfl
    rw [hids]
    simp only [List.foldl_cons, List.foldl_nil]
    rw [h2start, hcomb, hT]
    rfl
  exact hu

theorem duel_fold (sq : ℚ → ℚ) (hs : sq 0 = 0) :
    ∀ (ds : List ℚ) (t : ℚ), (∀ d ∈ ds, 0 < d ∧ d ≤ 1) → 0 ≤ t →
      t + ds.sum ≤ 23 / 10 →
      ds.foldl (update sq) (duelState t) = duelState (t + ds.sum) := by
  intro ds
  induction ds with
  | nil =>
    intro t _ _ _
    simp
  | cons d rest ih =>
    intro t hall ht hsum
    obtain ⟨hd0, hd1⟩ := hall d (List.mem_cons_self d rest)
    have hrest : ∀ x ∈ rest, 0 < x ∧ x ≤ 1 :=
      fun x hx => hall x (List.mem_cons_of_mem d hx)
    have hrs : 0 ≤ rest.sum :=
      List.sum_nonneg (fun x hx => le_of_lt (hrest x hx).1)
    rw [List.sum_cons] at hsum ⊢
    have hstep : update sq (duelState t) d = duelState (t + d) :=
      duel_step sq hs t d ht hd0 hd1 (by linarith)
    rw [List.foldl_cons, hstep,
      ih (t + d) hrest (by linarith) (by linarith)]
    rw [add_assoc]

/-- C6: the damage throttle.  Starting the helicopter-versus-tank duel
at game time 0, ANY sequence of update ticks with positive deltas of at
most one second each summing to 2.3 seconds leaves the tank at health
300 - 2 * 15: the whole-second boundary test (floor of time after the
tick versus floor of time before it) applies the 15-point hit exactly
twice — once for each whole game-second crossed — no matter how the 2.3
seconds is split into ticks. -/
theorem C6_damage_throttle (sq : ℚ → ℚ) (hs : sq 0 = 0) (ds : List ℚ)
    (hds : ∀ d ∈ ds, 0 < d ∧ d ≤ 1) (hsum : ds.sum = 23 / 10) :
    (lookupUnit ((ds.foldl (update sq) (duelState 0)).units) 3).map GUnit.health
      = some (300 - 2 * 15) := by
  have hfold := duel_fold sq hs ds 0 hds le_rfl (by rw [hsum]; norm_num)
  rw [hfold, hsum]
  have hfl : (⌊(0 : ℚ) + 23 / 10⌋ : ℤ) = 2 := by
    rw [Int.floor_eq_iff] <;> norm_num
  norm_num [duelState, duelMid, lookupUnit, hfl]

/-- Witness for C6: splitting the 2.3 seconds as four half-second ticks
and one 0.3-second tick. -/
theorem C6_damage_throttle_witness :
    zeroSqrt 0 = 0 ∧
    (∀ d ∈ [(1 : ℚ) / 2, 1 / 2, 1 / 2, 1 / 2, 3 / 10], 0 < d ∧ d ≤ 1) ∧
    ([(1 : ℚ) / 2, 1 / 2, 1 / 2, 1 / 2, 3 / 10].sum = 23 / 10) ∧
    (lookupUnit (([(1 : ℚ) / 2, 1 / 2, 1 / 2, 1 / 2, 3 / 10].foldl
        (update zeroSqrt) (duelState 0)).units) 3).map GUnit.health
      = some (300 - 2 * 15) :=
  ⟨rfl, by norm_num, by norm_num,
    C6_damage_throttle zeroSqrt rfl [(1 : ℚ) / 2, 1 / 2, 1 / 2, 1 / 2, 3 / 10]
      (by norm_num) (by norm_num)⟩

end MiniGenerals
